import Mathlib

/-!
Cache detector of the CDN seed node (cdn/supervisor/cdn/cache_detector.go)

A shallow embedding of the cache detector and of the piece verifier it uses,
followed by the properties proved about them.

Conventions of the embedding

* A byte is a `Fin 256`; a hash state (`hash.Hash`) is the sequence of bytes
  written to it so far, so "the hasher absorbed exactly these bytes" is an
  equation between lists.
* A Go `error` is an `Option String` (`none` is `nil`); a Go pair
  `(value, error)` whose value is only meaningful without an error is an
  `Except String value`.
* Machine integers are `Nat` / `Int` with the wrap-around written out
  (`int32`, `uint64`, `int64` below).
* The collaborators whose code is outside the sources (the metadata manager
  over the blob store, the origin client) are modelled from the specification;
  every such definition says so in its doc comment.
-/

namespace Dragonfly

/-- One byte of a data blob. -/
abbrev Byte := Fin 256

/-! ## crypto/md5 and digestutils.ToHashString -/

namespace Md5

/-- Per-round left-rotation amounts of MD5 (RFC 1321). -/
def shifts : List Nat :=
  [7, 12, 17, 22, 7, 12, 17, 22, 7, 12, 17, 22, 7, 12, 17, 22,
   5, 9, 14, 20, 5, 9, 14, 20, 5, 9, 14, 20, 5, 9, 14, 20,
   4, 11, 16, 23, 4, 11, 16, 23, 4, 11, 16, 23, 4, 11, 16, 23,
   6, 10, 15, 21, 6, 10, 15, 21, 6, 10, 15, 21, 6, 10, 15, 21]

/-- The sine-derived round constants of MD5 (RFC 1321). -/
def sines : List Nat :=
  [0xd76aa478, 0xe8c7b756, 0x242070db, 0xc1bdceee, 0xf57c0faf, 0x4787c62a, 0xa8304613, 0xfd469501,
   0x698098d8, 0x8b44f7af, 0xffff5bb1, 0x895cd7be, 0x6b901122, 0xfd987193, 0xa679438e, 0x49b40821,
   0xf61e2562, 0xc040b340, 0x265e5a51, 0xe9b6c7aa, 0xd62f105d, 0x02441453, 0xd8a1e681, 0xe7d3fbc8,
   0x21e1cde6, 0xc33707d6, 0xf4d50d87, 0x455a14ed, 0xa9e3e905, 0xfcefa3f8, 0x676f02d9, 0x8d2a4c8a,
   0xfffa3942, 0x8771f681, 0x6d9d6122, 0xfde5380c, 0xa4beea44, 0x4bdecfa9, 0xf6bb4b60, 0xbebfbc70,
   0x289b7ec6, 0xeaa127fa, 0xd4ef3085, 0x04881d05, 0xd9d4d039, 0xe6db99e5, 0x1fa27cf8, 0xc4ac5665,
   0xf4292244, 0x432aff97, 0xab9423a7, 0xfc93a039, 0x655b59c3, 0x8f0ccc92, 0xffeff47d, 0x85845dd1,
   0x6fa87e4f, 0xfe2ce6e0, 0xa3014314, 0x4e0811a1, 0xf7537e82, 0xbd3af235, 0x2ad7d2bb, 0xeb86d391]

/-- Modulus of 32-bit words. -/
def w32 : Nat := 4294967296

/-- Left rotation of a 32-bit word. -/
def rotl (x c : Nat) : Nat := ((x <<< c) ||| (x >>> (32 - c))) % w32

/-- Bitwise complement of a 32-bit word. -/
def not32 (x : Nat) : Nat := x ^^^ 0xffffffff

/-- The four chaining words of MD5. -/
structure Chain where
  a : Nat
  b : Nat
  c : Nat
  d : Nat

/-- The initial chaining value. -/
def iv : Chain := ⟨0x67452301, 0xefcdab89, 0x98badcfe, 0x10325476⟩

/-- Little-endian value of a list of bytes. -/
def leWord (bs : List Nat) : Nat :=
  bs.foldr (fun b acc => b + 256 * acc) 0

/-- The first `n` little-endian 32-bit words of a byte sequence. -/
def words : Nat → List Nat → List Nat
  | 0, _ => []
  | n + 1, bs => leWord (bs.take 4) :: words n (bs.drop 4)

/-- One of the 64 operations of the MD5 compression function. -/
def step (m : List Nat) (s : Chain) (i : Nat) : Chain :=
  let f :=
    if i < 16 then (s.b &&& s.c) ||| (not32 s.b &&& s.d)
    else if i < 32 then (s.d &&& s.b) ||| (not32 s.d &&& s.c)
    else if i < 48 then s.b ^^^ s.c ^^^ s.d
    else s.c ^^^ (s.b ||| not32 s.d)
  let g :=
    if i < 16 then i
    else if i < 32 then (5 * i + 1) % 16
    else if i < 48 then (3 * i + 5) % 16
    else (7 * i) % 16
  let f2 := (f + s.a + sines.getD i 0 + m.getD g 0) % w32
  ⟨s.d, (s.b + rotl f2 (shifts.getD i 0)) % w32, s.b, s.c⟩

/-- The MD5 compression function on one 64-byte block. -/
def block (s : Chain) (chunk : List Nat) : Chain :=
  let m := words 16 chunk
  let t := (List.range 64).foldl (step m) s
  ⟨(s.a + t.a) % w32, (s.b + t.b) % w32, (s.c + t.c) % w32, (s.d + t.d) % w32⟩

/-- The `n` low bytes of a number, least significant first. -/
def leBytes : Nat → Nat → List Nat
  | 0, _ => []
  | n + 1, x => x % 256 :: leBytes n (x / 256)

/-- MD5 padding: a one bit, zeros up to 56 mod 64, the bit length on 8 bytes. -/
def pad (msg : List Nat) : List Nat :=
  let n := msg.length
  let zeros := (119 - n % 64) % 64
  msg ++ [128] ++ List.replicate zeros 0 ++ leBytes 8 ((8 * n) % 2 ^ 64)

/-- Compression of `n` consecutive blocks. -/
def blocks : Nat → Chain → List Nat → Chain
  | 0, s, _ => s
  | n + 1, s, bs => blocks n (block s (bs.take 64)) (bs.drop 64)

/-- The 16-byte MD5 sum of a message. -/
def sum (msg : List Nat) : List Nat :=
  let p := pad msg
  let s := blocks (p.length / 64) iv p
  leBytes 4 s.a ++ leBytes 4 s.b ++ leBytes 4 s.c ++ leBytes 4 s.d

/-- One lowercase hexadecimal digit. -/
def hexDigit (n : Nat) : Char :=
  "0123456789abcdef".toList.getD n '0'

/-- Lowercase hexadecimal encoding (encoding/hex). -/
def hex (bs : List Nat) : String :=
  String.mk (bs.flatMap fun b => [hexDigit (b / 16), hexDigit (b % 16)])

end Md5

/-- The value of `digestutils.ToHashString(h)` for an MD5 hasher `h` that has
absorbed `bs`: the lowercase hex encoding of the MD5 sum. -/
def md5Hex (bs : List Byte) : String :=
  Md5.hex (Md5.sum (bs.map Fin.val))

/-! ## Machine integers -/

/-- Conversion `int32(n)` of a Go `int`: two's complement truncation. -/
def int32 (n : Int) : Int := (n + 2147483648) % 4294967296 - 2147483648

/-- Arithmetic in `uint64`: reduction modulo `2^64`. -/
def uint64 (n : Nat) : Nat := n % 18446744073709551616

/-- Conversion `int64(n)` of a `uint64`: values from `2^63` on become negative. -/
def int64 (n : Nat) : Int :=
  if uint64 n < 9223372036854775808 then (uint64 n : Int)
  else (uint64 n : Int) - 18446744073709551616

/-! ## Data model (storage.PieceMetaRecord, storage.FileMetadata, types.SeedTask) -/

/-- The type `rangeutils.Range`: an inclusive byte interval with `uint64` bounds. -/
structure Range where
  StartIndex : Nat
  EndIndex : Nat
  deriving DecidableEq, Repr

/-- The type `storage.PieceMetaRecord`: one entry of the piece journal.
`PieceNum` is an `int32` (the detector compares it with `int32(index)`), and
`PieceLen` an integer length that the verifier converts with `int64(...)`; its
declaration is outside the sources, so every integer is allowed here. The
records of a journal and their ranges are taken to be non-nil, as the detector
dereferences them unconditionally. -/
structure PieceMetaRecord where
  PieceNum : Int
  PieceLen : Int
  Md5 : String
  Range : Dragonfly.Range
  OriginRange : Dragonfly.Range
  PieceStyle : Nat
  deriving DecidableEq, Repr

/-- The type `storage.FileMetadata`: the persisted record of a task. -/
structure FileMetadata where
  TaskID : String
  TaskURL : String
  PieceSize : Int
  SourceFileLen : Int
  CdnFileLength : Int
  SourceRealDigest : String
  PieceMd5Sign : String
  ExpireInfo : List (String × String)
  Finish : Bool
  Success : Bool
  TotalPieceCount : Int
  Digest : String
  Tag : String
  Range : String
  Filter : String
  deriving DecidableEq, Repr

/-- The type `types.SeedTask`: the request-side description of a resource. -/
structure SeedTask where
  ID : String
  RawURL : String
  TaskURL : String
  Header : List (String × String)
  PieceSize : Int
  Range : String
  Digest : String
  Tag : String
  Filter : String
  deriving DecidableEq, Repr

/-- The type `cacheResult`: what the detector returns. `fileMetadata` is a
pointer and may be nil. -/
structure CacheResult where
  breakPoint : Int
  pieceMetaRecords : List PieceMetaRecord
  fileMetadata : Option FileMetadata
  deriving DecidableEq, Repr

/-! ## Errors (github.com/pkg/errors) -/

/-- The functions `errors.Wrap` and `errors.Wrapf`: annotate an error with a
message; wrapping a nil error gives nil. -/
def wrap (err : Option String) (msg : String) : Option String :=
  match err with
  | none => none
  | some e => some (msg ++ ": " ++ e)

/-! ## Piece verifier -/

/-- A sequential byte stream (`io.Reader`): the bytes it still delivers, and
what a read meets once they are exhausted: an I/O error, or `io.EOF` when
`err` is `none`. -/
structure Reader where
  data : List Byte
  err : Option String
  deriving DecidableEq, Repr

/-- The call `io.Copy(ioutil.Discard, r)` on a reader limited to `limit` bytes
(`io.LimitReader(reader, limit)`): the bytes read, the error returned by
`io.Copy` (`io.EOF` is not an error), and the reader afterwards. A limited
reader answers `io.EOF` without touching the stream once its budget is used
up, also when the budget is zero or negative from the start. -/
def copyLimited (reader : Reader) (limit : Int) : List Byte × Option String × Reader :=
  if limit.toNat ≤ reader.data.length then
    (reader.data.take limit.toNat, none, { reader with data := reader.data.drop limit.toNat })
  else
    (reader.data, reader.err, { reader with data := [] })

/-- What `checkPieceContent` leaves behind: the returned error, the reader and
the running file hasher. -/
structure PieceCheck where
  err : Option String
  reader : Reader
  fileDigest : List Byte
  deriving DecidableEq, Repr

/-- The function `checkPieceContent`: read the piece through a fresh MD5 hasher
and the running file hasher (both tee readers see every byte read), then
compare lengths and digests. -/
def checkPieceContent (reader : Reader) (pieceRecord : PieceMetaRecord)
    (fileDigest : List Byte) : PieceCheck :=
  let (got, err, reader') := copyLimited reader pieceRecord.PieceLen
  let pieceMd5 : List Byte := got
  let fileDigest' := fileDigest ++ got
  if (got.length : Int) ≠ pieceRecord.PieceLen ∨ err ≠ none then
    ⟨wrap err "read piece content", reader', fileDigest'⟩
  else
    let realPieceMd5 := md5Hex pieceMd5
    if realPieceMd5 ≠ pieceRecord.Md5 then
      ⟨some ("piece md5 sign is inconsistent, expected is " ++ pieceRecord.Md5 ++
        ", but got " ++ realPieceMd5), reader', fileDigest'⟩
    else
      ⟨none, reader', fileDigest'⟩

/-! ## Task identity checker -/

/-- Rendering of the `%v` and `%+v` verbs of `fmt` on the values whose type
declarations are outside the sources (taken as a parameter: the texts only end
up in messages). -/
structure Verbs where
  task : SeedTask → String
  metadata : FileMetadata → String
  records : List PieceMetaRecord → String
  metadataPlus : FileMetadata → String

/-- A pointer under `%v`: `<nil>` for nil, otherwise the rendering of the value. -/
def showPtr {α : Type} (render : α → String) : Option α → String
  | none => "<nil>"
  | some a => render a

/-- The verb `%d` on an integer. -/
def showInt (n : Int) : String := toString n

/-- The function `checkMetadata`: compare the identity fields of the task and
of the stored metadata, in the order of the source, and say why they differ. -/
def checkMetadata (verbs : Verbs) (task : Option SeedTask) (metadata : Option FileMetadata) :
    Bool × String :=
  match task, metadata with
  | some task, some metadata =>
    if metadata.TaskID ≠ task.ID then
      (false, "metadata TaskID(" ++ metadata.TaskID ++ ") is not equals with task ID(" ++
        task.ID ++ ")")
    else if metadata.TaskURL ≠ task.TaskURL then
      (false, "metadata taskURL(" ++ metadata.TaskURL ++ ") is not equals with task taskURL(" ++
        task.TaskURL ++ ")")
    else if metadata.PieceSize ≠ task.PieceSize then
      (false, "metadata piece size(" ++ showInt metadata.PieceSize ++
        ") is not equals with task piece size(" ++ showInt task.PieceSize ++ ")")
    else if task.Range ≠ metadata.Range then
      (false, "metadata range(" ++ metadata.Range ++ ") is not equals with task range(" ++
        task.Range ++ ")")
    else if task.Digest ≠ metadata.Digest then
      (false, "meta digest(" ++ metadata.SourceRealDigest ++
        ") is not equals with task request digest(" ++ task.Digest ++ ")")
    else if task.Tag ≠ metadata.Tag then
      (false, "metadata tag(" ++ metadata.Range ++ ") is not equals with task tag(" ++
        task.Range ++ ")")
    else if task.Filter ≠ metadata.Filter then
      (false, "metadata filter(" ++ metadata.Filter ++ ") is not equals with task filter(" ++
        task.Filter ++ ")")
    else (true, "")
  | task, metadata =>
    (false, "task or metadata is nil, task: " ++ showPtr verbs.task task ++ ", metadata: " ++
      showPtr verbs.metadata metadata)

/-! ## Collaborators: origin client and metadata manager -/

/-- A request to the origin (`source.Request`): the URL and the headers. -/
structure Request where
  URL : String
  Header : List (String × String)
  deriving DecidableEq, Repr

/-- The type `source.ExpireInfo`: the stored validators. -/
structure ExpireInfo where
  LastModified : String
  ETag : String
  deriving DecidableEq, Repr

/-- The origin client (package `source`), taken as a parameter: each function
answers with the Go pair it returns. `isExpired` and `isSupportRange` return a
boolean together with an error, as their call sites in `doDetect` show. -/
structure Origin where
  newRequestWithHeader : String → List (String × String) → Except String Request
  isExpired : Request → ExpireInfo → Bool × Option String
  isSupportRange : Request → Bool × Option String

/-- Modelled from the spec: the validator name under which `expire_info` keeps
the last-modified time (§3); the constant `source.LastModified` is outside the
sources. -/
def LastModified : String := "last-modified"

/-- Modelled from the spec: the validator name under which `expire_info` keeps
the entity tag (§3); the constant `source.ETag` is outside the sources. -/
def ETag : String := "etag"

/-- Modelled from the spec: the name of the range header set on the support
probe (§6); the constant `source.Range` is outside the sources. -/
def RangeHeader : String := "Range"

/-- Indexing a Go `map[string]string`: the empty string for a missing key. -/
def mapGet (m : List (String × String)) (key : String) : String :=
  (m.lookup key).getD ""

/-- The three persisted artifacts of one task, and its last-touched time. -/
structure Artifacts where
  metadata : Option FileMetadata
  journal : List PieceMetaRecord
  blob : List Byte
  accessTime : Option Int
  deriving DecidableEq, Repr

/-- The persisted state: the artifacts kept under each task id. -/
abbrev Storage := String → Artifacts

/-- Injected failures of the storage adapter: for each operation the I/O error
it fails with during this run, if any; for the blob stream, after how many
bytes a read fails and with which error. -/
structure Faults where
  readFileMetadata : Option String
  writeFileMetadataByTask : Option String
  getPieceMd5Sign : Option String
  statDownloadFile : Option String
  readDownloadFile : Option String
  readPieceMetaRecords : Option String
  writePieceMetaRecords : Option String
  resetRepo : Option String
  updateAccessTime : Option String
  streamBreak : Option (Nat × String)

/-- Everything outside the detector that a run depends on. `now` is the value
of `getCurrentTimeMillisFunc()`. -/
structure Env where
  verbs : Verbs
  origin : Origin
  faults : Faults
  now : Int

/-- Modelled from the spec: `read_file_metadata(task_id) → FileMetadata |
NotFound | IoError` (§4.2); the metadata manager is outside the sources. -/
def readFileMetadata (env : Env) (st : Storage) (taskID : String) : Except String FileMetadata :=
  match env.faults.readFileMetadata with
  | some e => .error e
  | none =>
    match (st taskID).metadata with
    | none => .error "file metadata not found"
    | some m => .ok m

/-- Modelled from the spec: the fresh metadata record "derived from the task"
(§4.1 step 4), whose identity fields equal the task's (§8, cold start); the
other fields are zero. The metadata manager is outside the sources. -/
def freshMetadata (task : SeedTask) : FileMetadata :=
  { TaskID := task.ID, TaskURL := task.TaskURL, PieceSize := task.PieceSize,
    SourceFileLen := 0, CdnFileLength := 0, SourceRealDigest := "", PieceMd5Sign := "",
    ExpireInfo := [], Finish := false, Success := false, TotalPieceCount := 0,
    Digest := task.Digest, Tag := task.Tag, Range := task.Range, Filter := task.Filter }

/-- Modelled from the spec: `write_file_metadata_by_task(task) → FileMetadata |
IoError` (§4.2): store the fresh record under the task id and return it. -/
def writeFileMetadataByTask (env : Env) (st : Storage) (task : SeedTask) :
    Except String FileMetadata × Storage :=
  match env.faults.writeFileMetadataByTask with
  | some e => (.error e, st)
  | none =>
    (.ok (freshMetadata task),
      Function.update st task.ID { st task.ID with metadata := some (freshMetadata task) })

/-- The UTF-8 bytes of a string. -/
def utf8 (s : String) : List Byte :=
  s.toList.flatMap fun c => (String.utf8EncodeChar c).map fun b => (b.val : Fin 256)

/-- Modelled from the spec: the piece sign, "the canonical digest over the
concatenation of `records[i].md5` in order" (§4.2), an MD5 in the full-hit
scenario of §8. -/
def pieceMd5Sign (records : List PieceMetaRecord) : String :=
  md5Hex (utf8 (String.join (records.map fun r => r.Md5)))

/-- Modelled from the spec: `get_piece_md5_sign(task_id) → (sign, records) |
IoError` (§4.2). -/
def getPieceMd5Sign (env : Env) (st : Storage) (taskID : String) :
    Except String (String × List PieceMetaRecord) :=
  match env.faults.getPieceMd5Sign with
  | some e => .error e
  | none => .ok (pieceMd5Sign (st taskID).journal, (st taskID).journal)

/-- Modelled from the spec: `stat_download_file(task_id) → {size} | IoError`
(§4.2): the size of the data blob. -/
def statDownloadFile (env : Env) (st : Storage) (taskID : String) : Except String Int :=
  match env.faults.statDownloadFile with
  | some e => .error e
  | none => .ok ((st taskID).blob.length : Int)

/-- Modelled from the spec: `read_download_file(task_id)`, a sequential byte
stream over the data blob (§4.2); a read of the stream may fail part-way. -/
def readDownloadFile (env : Env) (st : Storage) (taskID : String) : Except String Reader :=
  match env.faults.readDownloadFile with
  | some e => .error e
  | none =>
    match env.faults.streamBreak with
    | none => .ok ⟨(st taskID).blob, none⟩
    | some (n, e) => .ok ⟨(st taskID).blob.take n, some e⟩

/-- Modelled from the spec: `read_piece_meta_records(task_id) → ordered
sequence of PieceMetaRecord | IoError` (§4.2). -/
def readPieceMetaRecords (env : Env) (st : Storage) (taskID : String) :
    Except String (List PieceMetaRecord) :=
  match env.faults.readPieceMetaRecords with
  | some e => .error e
  | none => .ok (st taskID).journal

/-- Modelled from the spec: `write_piece_meta_records(task_id, records) → () |
IoError`, an atomic replace of the journal (§4.2). -/
def writePieceMetaRecords (env : Env) (st : Storage) (taskID : String)
    (records : List PieceMetaRecord) : Option String × Storage :=
  match env.faults.writePieceMetaRecords with
  | some e => (some e, st)
  | none => (none, Function.update st taskID { st taskID with journal := records })

/-- Modelled from the spec: `reset_repo(task) → () | IoError`, which destroys
the three artifacts of the task (§4.2). A failing reset is modelled as leaving
the storage as it was. -/
def resetRepo (env : Env) (st : Storage) (task : SeedTask) : Option String × Storage :=
  match env.faults.resetRepo with
  | some e => (some e, st)
  | none =>
    (none, Function.update st task.ID
      { st task.ID with metadata := none, journal := [], blob := [] })

/-- Modelled from the spec: `update_access_time(task_id, millis) → () |
IoError` (§4.2): record the last-touched time. -/
def updateAccessTime (env : Env) (st : Storage) (taskID : String) (millis : Int) :
    Option String × Storage :=
  match env.faults.updateAccessTime with
  | some e => (some e, st)
  | none => (none, Function.update st taskID { st taskID with accessTime := some millis })

/-! ## Cache detector -/

/-- A call that may touch the storage and the running file hasher: what it
returns and what it leaves behind. -/
structure After (α : Type) where
  ret : α
  storage : Storage
  fileDigest : List Byte

/-- The function `detectByReadMetaFile`: the metadata-only check of a finished
task. It reads the journal and stats the blob, and writes nothing. -/
def detectByReadMetaFile (env : Env) (st : Storage) (taskID : String)
    (fileMetadata : FileMetadata) : Except String CacheResult :=
  if fileMetadata.Success = false then
    .error "metadata success flag is false"
  else
    match getPieceMd5Sign env st taskID with
    | .error err => .error ("get pieces md5 sign: " ++ err)
    | .ok (md5Sign, pieceMetaRecords) =>
      if fileMetadata.TotalPieceCount > 0 ∧
          (pieceMetaRecords.length : Int) ≠ fileMetadata.TotalPieceCount then
        .error ("total piece count is inconsistent, expected is " ++
          showInt fileMetadata.TotalPieceCount ++ ", but got " ++
          showInt pieceMetaRecords.length)
      else if fileMetadata.PieceMd5Sign ≠ "" ∧ md5Sign ≠ fileMetadata.PieceMd5Sign then
        .error ("piece md5 sign is inconsistent, expected is " ++ fileMetadata.PieceMd5Sign ++
          ", but got " ++ md5Sign)
      else
        match statDownloadFile env st taskID with
        | .error err => .error ("stat download file info: " ++ err)
        | .ok size =>
          if fileMetadata.CdnFileLength ≠ size then
            .error ("file size is inconsistent, expected is " ++
              showInt fileMetadata.CdnFileLength ++ ", but got " ++ showInt size)
          else
            .ok { breakPoint := -1, pieceMetaRecords := pieceMetaRecords,
                  fileMetadata := some fileMetadata }

/-- The variables of the loop of `detectByReadFile`. -/
structure Scan where
  reader : Reader
  fileDigest : List Byte
  breakPoint : Nat
  pieceMetaRecords : List PieceMetaRecord
  deriving DecidableEq, Repr

/-- The loop `for index := range tempRecords` of `detectByReadFile`, from
position `index` on, `records` being the entries not yet visited. It stops at
the first entry whose number is not its position or whose content check
returns an error; `breakPoint` is a `uint64`. -/
def scanPieces : Nat → List PieceMetaRecord → Scan → Scan
  | _, [], s => s
  | index, record :: rest, s =>
    if int32 index ≠ record.PieceNum then s
    else
      let c := checkPieceContent s.reader record s.fileDigest
      match c.err with
      | some _ => { s with reader := c.reader, fileDigest := c.fileDigest }
      | none =>
        scanPieces (index + 1) rest
          { reader := c.reader, fileDigest := c.fileDigest,
            breakPoint := uint64 (record.OriginRange.EndIndex + 1),
            pieceMetaRecords := s.pieceMetaRecords ++ [record] }

/-- The function `detectByReadFile`: verify the journal against the bytes of
the blob, rewrite the journal when entries were dropped, and return the
surviving entries with `int64(breakPoint)`. -/
def detectByReadFile (env : Env) (st : Storage) (taskID : String) (metadata : FileMetadata)
    (fileDigest : List Byte) : After (Except String CacheResult) :=
  match readDownloadFile env st taskID with
  | .error err => ⟨.error ("read download data file: " ++ err), st, fileDigest⟩
  | .ok reader =>
    match readPieceMetaRecords env st taskID with
    | .error err => ⟨.error ("read piece meta records: " ++ err), st, fileDigest⟩
    | .ok tempRecords =>
      let s := scanPieces 0 tempRecords ⟨reader, fileDigest, 0, []⟩
      let written :=
        if tempRecords.length ≠ s.pieceMetaRecords.length then
          writePieceMetaRecords env st taskID s.pieceMetaRecords
        else (none, st)
      match written.1 with
      | some err => ⟨.error ("write piece meta records failed: " ++ err), written.2, s.fileDigest⟩
      | none =>
        ⟨.ok { breakPoint := int64 s.breakPoint, pieceMetaRecords := s.pieceMetaRecords,
               fileMetadata := some metadata }, written.2, s.fileDigest⟩

/-- The function `doDetect`: identity and expiration checks, then the fast path
for a finished task and the slow path otherwise. The error of the expiration
probe is only logged. -/
def doDetect (env : Env) (st : Storage) (task : SeedTask) (fileDigest : List Byte) :
    After (Except String CacheResult) :=
  match readFileMetadata env st task.ID with
  | .error err => ⟨.error ("read file metadata: " ++ err), st, fileDigest⟩
  | .ok fileMetadata =>
    let checked := checkMetadata env.verbs (some task) (some fileMetadata)
    if checked.1 = false then
      ⟨.error ("fileMetadata has been modified: " ++ checked.2), st, fileDigest⟩
    else
      match env.origin.newRequestWithHeader task.RawURL task.Header with
      | .error err => ⟨.error ("create request: " ++ err), st, fileDigest⟩
      | .ok checkExpiredRequest =>
        let probe := env.origin.isExpired checkExpiredRequest
          { LastModified := mapGet fileMetadata.ExpireInfo LastModified,
            ETag := mapGet fileMetadata.ExpireInfo ETag }
        let expired := probe.1
        if expired = true then
          ⟨.error ("resource " ++ task.TaskURL ++ " has expired"), st, fileDigest⟩
        else if fileMetadata.Finish = true then
          ⟨detectByReadMetaFile env st task.ID fileMetadata, st, fileDigest⟩
        else
          match env.origin.newRequestWithHeader task.RawURL task.Header with
          | .error err =>
            ⟨.error ("create check support range request: " ++ err), st, fileDigest⟩
          | .ok checkSupportRangeRequest =>
            let ranged : Request :=
              { checkSupportRangeRequest with
                Header := checkSupportRangeRequest.Header ++ [(RangeHeader, "0-0")] }
            let support := env.origin.isSupportRange ranged
            match support.2 with
            | some err => ⟨.error ("check if support range: " ++ err), st, fileDigest⟩
            | none =>
              if support.1 = false then
                ⟨.error ("resource " ++ task.TaskURL ++ " is not support range request"),
                  st, fileDigest⟩
              else detectByReadFile env st task.ID fileMetadata fileDigest

/-- The function `resetCache`: destroy the artifacts of the task, then write a
fresh metadata record. -/
def resetCache (env : Env) (st : Storage) (task : SeedTask) :
    Except String FileMetadata × Storage :=
  match resetRepo env st task with
  | (some err, st1) => (.error err, st1)
  | (none, st1) => writeFileMetadataByTask env st1 task

/-- How a Go call ends: it returns, or it panics. -/
inductive Run (α : Type) where
  | returned (value : α)
  | panicked (reason : String)
  deriving DecidableEq, Repr

/-- The method `(*cacheResult).String`: it reads the fields of its receiver,
so on a nil receiver it panics with a nil pointer dereference. -/
def cacheResultString (verbs : Verbs) (result : Option CacheResult) : Run String :=
  match result with
  | none => .panicked "runtime error: invalid memory address or nil pointer dereference"
  | some r =>
    .returned ("\x7bbreakNum: " ++ showInt r.breakPoint ++ ", pieceMetaRecords: " ++
      verbs.records r.pieceMetaRecords ++ ", fileMetadata: " ++
      showPtr verbs.metadataPlus r.fileMetadata ++ "\x7d")

/-- The statements of `detectCache` up to its `return`: the values of the named
results `(result, err)` when the function body is left. -/
def detectCacheBody (env : Env) (st : Storage) (task : SeedTask) (fileDigest : List Byte) :
    After (Option CacheResult × Option String) :=
  let d := doDetect env st task fileDigest
  match d.ret with
  | .error _ =>
    match resetCache env d.storage task with
    | (.error err, st1) => ⟨(none, wrap (some err) "reset cache failed"), st1, d.fileDigest⟩
    | (.ok metadata, st1) =>
      let result : CacheResult :=
        { breakPoint := 0, pieceMetaRecords := [], fileMetadata := some metadata }
      ⟨(some result, none), (updateAccessTime env st1 task.ID env.now).2, d.fileDigest⟩
  | .ok result =>
    ⟨(some result, none), (updateAccessTime env d.storage task.ID env.now).2, d.fileDigest⟩

/-- The function `detectCache`: the body, then the deferred closure, which
evaluates `result.String()` on the named result for the span attribute. A
panic of the deferred call replaces the return. -/
def detectCache (env : Env) (st : Storage) (task : SeedTask) (fileDigest : List Byte) :
    After (Run (Option CacheResult × Option String)) :=
  let b := detectCacheBody env st task fileDigest
  match cacheResultString env.verbs b.ret.1 with
  | .panicked reason => ⟨.panicked reason, b.storage, b.fileDigest⟩
  | .returned _ => ⟨.returned b.ret, b.storage, b.fileDigest⟩

/-! ## Specification-side notions for the slow path -/

/-- The number of blob bytes the slots of the given entries take: the sum of
their piece lengths (a negative length takes none). -/
def consumed (records : List PieceMetaRecord) : Nat :=
  (records.map fun r => r.PieceLen.toNat).sum

/-- The blob stream positioned at the slot of entry `i` of the journal: after
the bytes of the entries before it. -/
def readerAt (reader : Reader) (journal : List PieceMetaRecord) (i : Nat) : Reader :=
  { reader with data := reader.data.drop (consumed (journal.take i)) }

/-- Entry `i` of the journal survives, positions being counted from `base`: its
piece number is its position (compared as the code does, in `int32`) and
`checkPieceContent` returns no error on the next bytes of the blob. -/
def Survives (base : Nat) (reader : Reader) (journal : List PieceMetaRecord) (i : Nat) : Prop :=
  ∃ e, journal[i]? = some e ∧ int32 ((base + i : Nat) : Int) = e.PieceNum ∧
    (checkPieceContent (readerAt reader journal i) e []).err = none

/-- The break point after the given surviving entries: `EndIndex + 1` of the
last one in `uint64`, or `start` when there is none. -/
def lastBreak (start : Nat) (survivors : List PieceMetaRecord) : Nat :=
  match survivors.getLast? with
  | none => start
  | some e => uint64 (e.OriginRange.EndIndex + 1)

/-- The length of the entry at position `k` when its piece number is its
position, so that the scan reads its bytes; zero otherwise. -/
def tornLen (base : Nat) (journal : List PieceMetaRecord) (k : Nat) : Nat :=
  match journal[k]? with
  | some e => if int32 ((base + k : Nat) : Int) = e.PieceNum then e.PieceLen.toNat else 0
  | none => 0

/-! ## Specification-side notions for the fast path and the reset -/

/-- The checks of the fast path on a stored record: the success flag, the
piece count when one is recorded, the piece sign when one is recorded, and the
size of the blob. -/
def FastChecks (st : Storage) (taskID : String) (m : FileMetadata) : Prop :=
  m.Success = true ∧
  (¬ m.TotalPieceCount > 0 ∨ ((st taskID).journal.length : Int) = m.TotalPieceCount) ∧
  (m.PieceMd5Sign = "" ∨ m.PieceMd5Sign = pieceMd5Sign (st taskID).journal) ∧
  ((st taskID).blob.length : Int) = m.CdnFileLength

/-- The detection gets past the identity and expiration phase with the stored
record `m`: the record is read, it passes the identity check, the request to
the origin is built, and the probe does not report the resource expired. -/
def PastExpiration (env : Env) (st : Storage) (task : SeedTask) (m : FileMetadata)
    (req : Request) : Prop :=
  readFileMetadata env st task.ID = .ok m ∧
  (checkMetadata env.verbs (some task) (some m)).1 = true ∧
  env.origin.newRequestWithHeader task.RawURL task.Header = .ok req ∧
  (env.origin.isExpired req
    { LastModified := mapGet m.ExpireInfo LastModified, ETag := mapGet m.ExpireInfo ETag }).1 = false

/-- The fast path is taken and succeeds. -/
def FastPathSucceeds (env : Env) (st : Storage) (task : SeedTask) : Prop :=
  ∃ m req, PastExpiration env st task m req ∧ m.Finish = true ∧
    env.faults.getPieceMd5Sign = none ∧ env.faults.statDownloadFile = none ∧
    FastChecks st task.ID m

/-- The request of the range-support probe: the request with `Range: 0-0` added. -/
def rangeProbe (req : Request) : Request :=
  { req with Header := req.Header ++ [(RangeHeader, "0-0")] }

/-- The recoverable inconsistencies of a detection: the metadata is missing or
unreadable, or it fails the identity check, or the probe reports the resource
expired, or the task is finished and a check of the fast path fails (success
flag, piece count, piece sign, blob size), or the task is unfinished and the
origin does not support range requests. -/
def Recoverable (env : Env) (st : Storage) (task : SeedTask) : Prop :=
  (∃ e, readFileMetadata env st task.ID = .error e) ∨
  (∃ m, readFileMetadata env st task.ID = .ok m ∧
    ((checkMetadata env.verbs (some task) (some m)).1 = false ∨
     (∃ req, env.origin.newRequestWithHeader task.RawURL task.Header = .ok req ∧
        (env.origin.isExpired req
          { LastModified := mapGet m.ExpireInfo LastModified,
            ETag := mapGet m.ExpireInfo ETag }).1 = true) ∨
     (m.Finish = true ∧ ¬ FastChecks st task.ID m) ∨
     (m.Finish = false ∧
        ∃ req, env.origin.newRequestWithHeader task.RawURL task.Header = .ok req ∧
          (env.origin.isSupportRange (rangeProbe req)).1 = false)))

/-- A storage adapter I/O error on one of the two paths: the blob stat fails on
the fast path, or on the slow path the blob cannot be opened, the journal
cannot be read, or the rewrite of the journal fails. -/
def StorageFailure (env : Env) (st : Storage) (task : SeedTask) (fileDigest : List Byte) :
    Prop :=
  ∃ m req, PastExpiration env st task m req ∧
    ((m.Finish = true ∧ env.faults.statDownloadFile ≠ none) ∨
     (m.Finish = false ∧ env.origin.isSupportRange (rangeProbe req) = (true, none) ∧
        (env.faults.readDownloadFile ≠ none ∨ env.faults.readPieceMetaRecords ≠ none ∨
         ∃ e, env.faults.writePieceMetaRecords = some e ∧
           (detectByReadFile env st task.ID m fileDigest).ret =
             .error ("write piece meta records failed: " ++ e))))

/-- The seven identity fields of the stored metadata equal those of the task:
task id, task URL, piece size, range, digest, tag and filter. -/
def IdentityMatches (t : SeedTask) (m : FileMetadata) : Prop :=
  m.TaskID = t.ID ∧ m.TaskURL = t.TaskURL ∧ m.PieceSize = t.PieceSize ∧ m.Range = t.Range ∧
  m.Digest = t.Digest ∧ m.Tag = t.Tag ∧ m.Filter = t.Filter

/-! ## Reverse proxy configuration (cdn/nginx/config.go) -/

namespace Nginx

/-- The type `Config` of package `nginx`. `DownloadPort` is a Go `int`. -/
structure Config where
  Binary : String
  DownloadPort : Int
  StorageLocation : String
  Root : Bool
  Name : String
  TemplatePath : String
  CacheDir : String
  LogDir : String
  StdoutLogPath : String
  AccessLogPath : String
  ErrorLogPath : String
  deriving DecidableEq, Repr

/-- The constant `DefaultDownloadPort`. -/
def DefaultDownloadPort : Int := 8001

/-- The method `Config.Validate`: the list of errors, each given by its text. -/
def Config.Validate (c : Config) : List String :=
  let errors : List String := []
  if c.DownloadPort > 65535 ∨ c.DownloadPort < 1024 then
    errors ++ ["rpc server DownloadPort must be between 0 and 65535, inclusive. but is: " ++
      showInt c.DownloadPort]
  else errors

/-- The function `strings.Split(path, "/")` on the characters of a path: the
pieces between the separators (one piece more than there are separators). -/
def splitSlash : List Char → List (List Char)
  | [] => [[]]
  | c :: cs =>
    if c = '/' then [] :: splitSlash cs
    else
      match splitSlash cs with
      | [] => [[c]]
      | w :: ws => (c :: w) :: ws

/-- One element of a path met by `filepath.Clean`, the elements kept so far
being on a stack: an empty element and `.` are dropped, `..` removes the
element before it (at the start of a rooted path it is dropped, at the start
of a relative path it is kept), any other element is kept. -/
def cleanStep (rooted : Bool) (stack : List (List Char)) (comp : List Char) :
    List (List Char) :=
  if comp = [] ∨ comp = ['.'] then stack
  else if comp = ['.', '.'] then
    match stack with
    | top :: below => if top = ['.', '.'] then comp :: stack else below
    | [] => if rooted then [] else [comp]
  else comp :: stack

/-- The function `filepath.Clean` of the Go library, for the separator `/`:
the shortest equivalent path, `.` for an empty result. -/
def filepathClean (path : String) : String :=
  if path = "" then "."
  else
    let rooted : Bool := path.toList.head? = some '/'
    let stack := (splitSlash path.toList).foldl (cleanStep rooted) []
    let out := (if rooted then ['/'] else []) ++ List.intercalate ['/'] stack.reverse
    if out = [] then "." else String.mk out

/-- The function `filepath.Join` of the Go library, for the separator `/`:
leading empty elements are ignored, the others are joined with `/` and the
result is cleaned; the empty string when every element is empty. -/
def filepathJoin (elem : List String) : String :=
  match elem.dropWhile (fun e => decide (e = "")) with
  | [] => ""
  | rest => filepathClean ("/".intercalate rest)

/-- The method `(*Config).applyDefaults`: the error it returns and the
configuration it leaves behind (on an error the defaults set before the
failing test stay set). `errors.New` gives a non-nil error with the text. -/
def Config.applyDefaults (c : Config) : Option String × Config :=
  let c1 := if c.Binary = "" then { c with Binary := "/usr/sbin/nginx" } else c
  let c2 := if c1.DownloadPort = 0 then { c1 with DownloadPort := DefaultDownloadPort } else c1
  if c2.StdoutLogPath = "" ∧ c2.LogDir = "" then
    (some "one of log_dir or stdout_log_path must be set", c2)
  else
    let c3 :=
      if c2.StdoutLogPath = "" then
        { c2 with StdoutLogPath := filepathJoin [c2.LogDir, "nginx-stdout.log"] }
      else c2
    if c3.AccessLogPath = "" ∧ c3.LogDir = "" then
      (some "one of log_dir or access_log_path must be set", c3)
    else
      let c4 :=
        if c3.AccessLogPath = "" then
          { c3 with AccessLogPath := filepathJoin [c3.LogDir, "nginx-access.log"] }
        else c3
      if c4.ErrorLogPath = "" ∧ c4.LogDir = "" then
        (some "one of log_dir or error_log_path must be set", c4)
      else
        let c5 :=
          if c4.ErrorLogPath = "" then
            { c4 with ErrorLogPath := filepathJoin [c4.LogDir, "nginx-error.log"] }
          else c4
        (none, c5)

end Nginx

/-! ## Concrete scenarios (the end-to-end scenarios of the specification) -/

namespace Scenario

/-- A rendering of the opaque values in messages: the task id. -/
def verbs : Verbs :=
  { task := fun t => "&" ++ t.ID, metadata := fun m => "&" ++ m.TaskID,
    records := fun rs => toString rs.length, metadataPlus := fun m => "&" ++ m.TaskID }

/-- An origin that answers every probe: not expired, ranges supported. -/
def origin : Origin :=
  { newRequestWithHeader := fun url header => .ok ⟨url, header⟩,
    isExpired := fun _ _ => (false, none),
    isSupportRange := fun _ => (true, none) }

/-- No storage operation fails. -/
def noFaults : Faults :=
  { readFileMetadata := none, writeFileMetadataByTask := none, getPieceMd5Sign := none,
    statDownloadFile := none, readDownloadFile := none, readPieceMetaRecords := none,
    writePieceMetaRecords := none, resetRepo := none, updateAccessTime := none,
    streamBreak := none }

/-- The environment in which nothing fails. -/
def env : Env := { verbs := verbs, origin := origin, faults := noFaults, now := 1700000000000 }

/-- The task of the scenarios: pieces of four bytes. -/
def task : SeedTask :=
  { ID := "T", RawURL := "http://origin/file", TaskURL := "http://origin/file", Header := [],
    PieceSize := 4, Range := "", Digest := "", Tag := "", Filter := "" }

/-- Piece 0: bytes 1 2 3 4. -/
def piece0 : PieceMetaRecord :=
  { PieceNum := 0, PieceLen := 4, Md5 := "08d6c05a21512a79a1dfeb9d2a8f262f",
    Range := ⟨0, 3⟩, OriginRange := ⟨0, 3⟩, PieceStyle := 0 }

/-- Piece 1: bytes 5 6 7 8. -/
def piece1 : PieceMetaRecord :=
  { PieceNum := 1, PieceLen := 4, Md5 := "dece8077759a2b36b96fbd1203a832ab",
    Range := ⟨4, 7⟩, OriginRange := ⟨4, 7⟩, PieceStyle := 0 }

/-- Piece 2: bytes 9 10. -/
def piece2 : PieceMetaRecord :=
  { PieceNum := 2, PieceLen := 2, Md5 := "9dd172a836334f81b8e77c6bdd621ba2",
    Range := ⟨8, 9⟩, OriginRange := ⟨8, 9⟩, PieceStyle := 0 }

/-- The journal of the three pieces. -/
def journal : List PieceMetaRecord := [piece0, piece1, piece2]

/-- The intact blob of ten bytes. -/
def blob : List Byte := [1, 2, 3, 4, 5, 6, 7, 8, 9, 10]

/-- The blob with the byte at offset 8 corrupted. -/
def tornBlob : List Byte := [1, 2, 3, 4, 5, 6, 7, 8, 0, 10]

/-- Metadata of the task, finished or not, with no sign and no count recorded. -/
def metadata (finish : Bool) : FileMetadata :=
  { freshMetadata task with
    CdnFileLength := 10, ExpireInfo := [("etag", "v1")], Finish := finish, Success := finish }

/-- A storage holding the given artifacts under the id of the task. -/
def storage (a : Artifacts) : Storage :=
  fun id => if id = "T" then a else ⟨none, [], [], none⟩

end Scenario

namespace Scenario

/-- A blob cut short after six bytes: piece 1 has only two of its four bytes
and piece 2 none. -/
def shortBlob : List Byte := [1, 2, 3, 4, 5, 6]

/-- A journal entry for the bytes 1 2 3 4 whose origin range ends at
`2^64 - 2`, the largest `uint64` but one. -/
def farPiece : PieceMetaRecord :=
  { piece0 with OriginRange := ⟨0, 18446744073709551614⟩ }

end Scenario

namespace Scenario

/-- A configuration of the reverse proxy that listens on the given port. -/
def nginxConfig (port : Int) : Nginx.Config :=
  { Binary := "/usr/sbin/nginx", DownloadPort := port, StorageLocation := "/var/cdn", Root := false,
    Name := "cdn", TemplatePath := "", CacheDir := "/var/cache/nginx", LogDir := "/var/log/nginx",
    StdoutLogPath := "", AccessLogPath := "", ErrorLogPath := "" }

/-- The task of the scenarios with a range, a requested digest and a tag. -/
def taggedTask : SeedTask :=
  { task with Range := "0-99", Digest := "md5:aaa", Tag := "blue" }

end Scenario

namespace Scenario

/-- A configuration of the reverse proxy in which only the directories are
set: no binary, no port, no log path. -/
def bareConfig : Nginx.Config :=
  { Binary := "", DownloadPort := 0, StorageLocation := "/var/cdn", Root := false,
    Name := "cdn", TemplatePath := "", CacheDir := "/var/cache/nginx",
    LogDir := "/var/log/nginx/", StdoutLogPath := "", AccessLogPath := "/tmp/access.log",
    ErrorLogPath := "" }

end Scenario

namespace Scenario

/-- A journal entry for the bytes 1 2 3 4 whose origin range ends at
`2^64 - 1`, the largest `uint64`. -/
def wrapPiece : PieceMetaRecord :=
  { piece0 with OriginRange := ⟨0, 18446744073709551615⟩ }

end Scenario

/-! ## The piece verifier: what it reads, feeds and returns -/

theorem copyLimited_bytes (reader : Reader) (limit : Int) :
    (copyLimited reader limit).1 = reader.data.take limit.toNat := by
  unfold copyLimited
  split
  · rfl
  · rename_i h
    simp only
    rw [List.take_of_length_le (by omega)]

theorem copyLimited_reader (reader : Reader) (limit : Int) :
    (copyLimited reader limit).2.2 = { reader with data := reader.data.drop limit.toNat } := by
  unfold copyLimited
  split
  · rfl
  · rename_i h
    simp only
    rw [List.drop_of_length_le (by omega)]

/-- The running file hasher receives every byte the verifier read. -/
theorem checkPieceContent_fileDigest (reader : Reader) (e : PieceMetaRecord) (h : List Byte) :
    (checkPieceContent reader e h).fileDigest = h ++ reader.data.take e.PieceLen.toNat := by
  have hb := copyLimited_bytes reader e.PieceLen
  unfold checkPieceContent
  generalize copyLimited reader e.PieceLen = c at hb
  obtain ⟨got, err, r⟩ := c
  simp only at hb
  subst hb
  simp only
  split
  · rfl
  · split <;> rfl

/-- The stream is left after the bytes of the piece, whatever the verdict. -/
theorem checkPieceContent_reader (reader : Reader) (e : PieceMetaRecord) (h : List Byte) :
    (checkPieceContent reader e h).reader =
      { reader with data := reader.data.drop e.PieceLen.toNat } := by
  have hb := copyLimited_reader reader e.PieceLen
  unfold checkPieceContent
  generalize copyLimited reader e.PieceLen = c at hb
  obtain ⟨got, err, r⟩ := c
  simp only at hb
  subst hb
  simp only
  split
  · rfl
  · split <;> rfl

/-- The verdict does not depend on what the file hasher held before. -/
theorem checkPieceContent_err_digest (reader : Reader) (e : PieceMetaRecord) (h h2 : List Byte) :
    (checkPieceContent reader e h).err = (checkPieceContent reader e h2).err := by
  unfold checkPieceContent
  generalize copyLimited reader e.PieceLen = c
  obtain ⟨got, err, r⟩ := c
  simp only
  split
  · rfl
  · split <;> rfl

/-! ## Test vectors and scenario checks -/

set_option maxRecDepth 1000000 in
/-- The MD5 test vectors of RFC 1321 for the empty message and for "abc". -/
theorem md5Hex_test_vectors :
    md5Hex [] = "d41d8cd98f00b204e9800998ecf8427e" ∧
    md5Hex [97, 98, 99] = "900150983cd24fb0d6963f7d28e17f72" := by
  decide

set_option maxRecDepth 1000000 in
/-- A message longer than one block (eighty times the character 1). -/
theorem md5Hex_two_blocks :
    md5Hex (List.replicate 80 49) = "7478ba1875f17511c12740431336a09e" := by
  decide

set_option maxRecDepth 1000000 in
/-- The digests recorded in the journal of the scenarios are those of the
pieces of the intact blob. -/
theorem scenario_digests :
    md5Hex (Scenario.blob.take 4) = Scenario.piece0.Md5 ∧
    md5Hex ((Scenario.blob.drop 4).take 4) = Scenario.piece1.Md5 ∧
    md5Hex (Scenario.blob.drop 8) = Scenario.piece2.Md5 := by
  decide

set_option maxRecDepth 1000000 in
/-- Full hit (scenario 2 of the specification): finished metadata, intact blob,
probe fresh. The detection returns break point `-1` with the whole journal and
leaves the running hasher untouched. -/
theorem scenario_full_hit :
    (detectCache Scenario.env
        (Scenario.storage ⟨some (Scenario.metadata true), Scenario.journal, Scenario.blob, none⟩)
        Scenario.task []).ret =
      .returned (some ⟨-1, Scenario.journal, some (Scenario.metadata true)⟩, none) ∧
    (detectCache Scenario.env
        (Scenario.storage ⟨some (Scenario.metadata true), Scenario.journal, Scenario.blob, none⟩)
        Scenario.task []).fileDigest = [] := by
  decide

set_option maxRecDepth 1000000 in
/-- Torn tail (scenario 3 of the specification): the slow path keeps pieces 0
and 1 and returns break point 8. -/
theorem scenario_torn_tail :
    (detectCache Scenario.env
        (Scenario.storage
          ⟨some (Scenario.metadata false), Scenario.journal, Scenario.tornBlob, none⟩)
        Scenario.task []).ret =
      .returned (some ⟨8, [Scenario.piece0, Scenario.piece1], some (Scenario.metadata false)⟩,
        none) := by
  decide

set_option maxRecDepth 1000000 in
/-- A journal whose first entry is piece 1: nothing survives and the break
point is 0. -/
theorem scenario_missing_piece_zero :
    (detectByReadFile Scenario.env
        (Scenario.storage
          ⟨some (Scenario.metadata false), [Scenario.piece1, Scenario.piece2],
            Scenario.blob, none⟩)
        "T" (Scenario.metadata false) []).ret =
      .ok ⟨0, [], some (Scenario.metadata false)⟩ := by
  rfl


theorem checkPieceContent_err_none_iff (reader : Reader) (e : PieceMetaRecord) (h : List Byte) :
    (checkPieceContent reader e h).err = none ↔
      (e.PieceLen < 0 ∨ (reader.data.length < e.PieceLen.toNat ∧ reader.err = none) ∨
        (0 ≤ e.PieceLen ∧ e.PieceLen.toNat ≤ reader.data.length ∧
          md5Hex (reader.data.take e.PieceLen.toNat) = e.Md5)) := by
  unfold checkPieceContent copyLimited
  by_cases hk : e.PieceLen.toNat ≤ reader.data.length
  · simp only [hk, if_true]
    by_cases hneg : e.PieceLen < 0
    · have h0 : e.PieceLen.toNat = 0 := by omega
      have hne : ((List.take e.PieceLen.toNat reader.data).length : Int) ≠ e.PieceLen := by
        rw [h0, List.take_zero, List.length_nil]; omega
      rw [if_pos (Or.inl hne)]
      simp [hneg, wrap]
    · have hlen : ((List.take e.PieceLen.toNat reader.data).length : Int) = e.PieceLen := by
        rw [List.length_take, Nat.min_eq_left hk]; omega
      have hnl : ¬ reader.data.length < e.PieceLen.toNat := by omega
      have hpos : 0 ≤ e.PieceLen := by omega
      rw [if_neg (by rw [hlen]; simp)]
      by_cases hm : md5Hex (List.take e.PieceLen.toNat reader.data) = e.Md5
      · simp [hm, hk, hpos]
      · simp [hm, hneg, hnl]
  · simp only [hk, if_false]
    have hne : (reader.data.length : Int) ≠ e.PieceLen := by omega
    have hpos : ¬ e.PieceLen < 0 := by omega
    have hlt : reader.data.length < e.PieceLen.toNat := by omega
    rw [if_pos (Or.inl hne)]
    cases hr : reader.err <;> simp [wrap, hpos, hk, hlt]

theorem consumed_cons (r : PieceMetaRecord) (l : List PieceMetaRecord) :
    consumed (r :: l) = r.PieceLen.toNat + consumed l := by
  simp [consumed]

theorem readerAt_zero (reader : Reader) (journal : List PieceMetaRecord) :
    readerAt reader journal 0 = reader := by
  simp [readerAt, consumed]

theorem readerAt_succ (reader : Reader) (r : PieceMetaRecord) (rest : List PieceMetaRecord)
    (i : Nat) :
    readerAt reader (r :: rest) (i + 1) =
      readerAt { reader with data := reader.data.drop r.PieceLen.toNat } rest i := by
  simp [readerAt, consumed_cons, List.drop_drop, Nat.add_comm]

theorem survives_succ (base : Nat) (reader : Reader) (r : PieceMetaRecord)
    (rest : List PieceMetaRecord) (i : Nat) :
    Survives base reader (r :: rest) (i + 1) ↔
      Survives (base + 1) { reader with data := reader.data.drop r.PieceLen.toNat } rest i := by
  unfold Survives
  rw [readerAt_succ]
  have h : base + (i + 1) = base + 1 + i := by omega
  simp only [List.getElem?_cons_succ, h]

theorem tornLen_succ (base : Nat) (r : PieceMetaRecord) (rest : List PieceMetaRecord) (k : Nat) :
    tornLen base (r :: rest) (k + 1) = tornLen (base + 1) rest k := by
  unfold tornLen
  have h : base + (k + 1) = base + 1 + k := by omega
  simp only [List.getElem?_cons_succ, h]

theorem lastBreak_cons (start : Nat) (r : PieceMetaRecord) (l : List PieceMetaRecord) :
    lastBreak start (r :: l) = lastBreak (uint64 (r.OriginRange.EndIndex + 1)) l := by
  cases l with
  | nil => simp [lastBreak]
  | cons a t =>
    unfold lastBreak
    rw [List.getLast?_cons_cons]
    cases hl : (a :: t).getLast? with
    | none => simp at hl
    | some e => rfl

/-- What the loop of `detectByReadFile` computes, for every journal, stream and
start position: it keeps the longest run of surviving entries, feeds the
hasher every byte it read, and sets the break point from the last survivor. -/
theorem scanPieces_spec (rest : List PieceMetaRecord) :
    ∀ (base : Nat) (s : Scan), ∃ k, k ≤ rest.length ∧
      (scanPieces base rest s).pieceMetaRecords = s.pieceMetaRecords ++ rest.take k ∧
      (scanPieces base rest s).fileDigest =
        s.fileDigest ++ s.reader.data.take (consumed (rest.take k) + tornLen base rest k) ∧
      (scanPieces base rest s).breakPoint = lastBreak s.breakPoint (rest.take k) ∧
      (∀ i, i < k → Survives base s.reader rest i) ∧
      (k < rest.length → ¬ Survives base s.reader rest k) := by
  induction rest with
  | nil =>
    intro base s
    refine ⟨0, Nat.le_refl _, ?_, ?_, ?_, ?_, ?_⟩
    · simp [scanPieces]
    · simp [scanPieces, consumed, tornLen]
    · simp [scanPieces, lastBreak]
    · intro i hi; omega
    · intro h; simp at h
  | cons r rest ih =>
    intro base s
    by_cases hnum : int32 ((base : Nat) : Int) = r.PieceNum
    · cases herr : (checkPieceContent s.reader r s.fileDigest).err with
      | some msg =>
        refine ⟨0, Nat.zero_le _, ?_, ?_, ?_, ?_, ?_⟩
        · simp [scanPieces, hnum, herr]
        · simp [scanPieces, hnum, herr, consumed, tornLen, checkPieceContent_fileDigest]
        · simp [scanPieces, hnum, herr, lastBreak]
        · intro i hi; omega
        · intro _ hs
          obtain ⟨e, he, _, hc⟩ := hs
          simp at he
          subst he
          rw [readerAt_zero, checkPieceContent_err_digest _ _ _ s.fileDigest, herr] at hc
          cases hc
      | none =>
        obtain ⟨k, hk, hrec, hdig, hbp, hall, hstop⟩ := ih (base + 1)
          { reader := (checkPieceContent s.reader r s.fileDigest).reader,
            fileDigest := (checkPieceContent s.reader r s.fileDigest).fileDigest,
            breakPoint := uint64 (r.OriginRange.EndIndex + 1),
            pieceMetaRecords := s.pieceMetaRecords ++ [r] }
        have hscan : scanPieces base (r :: rest) s =
            scanPieces (base + 1) rest
              { reader := (checkPieceContent s.reader r s.fileDigest).reader,
                fileDigest := (checkPieceContent s.reader r s.fileDigest).fileDigest,
                breakPoint := uint64 (r.OriginRange.EndIndex + 1),
                pieceMetaRecords := s.pieceMetaRecords ++ [r] } := by
          simp [scanPieces, hnum, herr]
        simp only [checkPieceContent_reader, checkPieceContent_fileDigest] at hrec hdig hbp hall hstop
        refine ⟨k + 1, by simpa using hk, ?_, ?_, ?_, ?_, ?_⟩
        · rw [hscan]; simp only [checkPieceContent_reader, checkPieceContent_fileDigest]
          rw [hrec]; simp
        · rw [hscan]; simp only [checkPieceContent_reader, checkPieceContent_fileDigest]
          rw [hdig, List.take_succ_cons, consumed_cons, tornLen_succ, List.append_assoc,
            Nat.add_assoc, List.take_add s.reader.data r.PieceLen.toNat]
        · rw [hscan]; simp only [checkPieceContent_reader, checkPieceContent_fileDigest]
          rw [hbp, List.take_succ_cons, lastBreak_cons]
        · intro i hi
          cases i with
          | zero =>
            refine ⟨r, by simp, by simpa using hnum, ?_⟩
            rw [readerAt_zero, checkPieceContent_err_digest _ _ _ s.fileDigest, herr]
          | succ j =>
            rw [survives_succ]
            exact hall j (by omega)
        · intro hlt
          rw [survives_succ]
          exact hstop (by simpa using hlt)
    · refine ⟨0, Nat.zero_le _, ?_, ?_, ?_, ?_, ?_⟩
      · simp [scanPieces, hnum]
      · simp [scanPieces, hnum, consumed, tornLen]
      · simp [scanPieces, hnum, lastBreak]
      · intro i hi; omega
      · intro _ hs
        obtain ⟨e, he, hn, _⟩ := hs
        simp at he
        subst he
        exact hnum (by simpa using hn)

/-! ## How `detectCache` answers the outcome of `doDetect` -/

theorem detectCache_of_ok (env : Env) (st : Storage) (task : SeedTask) (h : List Byte)
    (r : CacheResult) (hd : (doDetect env st task h).ret = .ok r) :
    (detectCache env st task h).ret = .returned (some r, none) := by
  simp [detectCache, detectCacheBody, hd, cacheResultString]

theorem detectCache_of_reset (env : Env) (st : Storage) (task : SeedTask) (h : List Byte)
    (e : String) (hd : (doDetect env st task h).ret = .error e)
    (hr : env.faults.resetRepo = none) (hw : env.faults.writeFileMetadataByTask = none) :
    (detectCache env st task h).ret =
      .returned (some ⟨0, [], some (freshMetadata task)⟩, none) := by
  simp [detectCache, detectCacheBody, hd, cacheResultString, resetCache, resetRepo,
    writeFileMetadataByTask, hr, hw]

theorem detectCache_of_error (env : Env) (st : Storage) (task : SeedTask) (h : List Byte)
    (e : String) (hd : (doDetect env st task h).ret = .error e) :
    (detectCache env st task h).ret =
      (match (resetCache env (doDetect env st task h).storage task).1 with
      | .error _ => .panicked "runtime error: invalid memory address or nil pointer dereference"
      | .ok fresh => .returned (some ⟨0, [], some fresh⟩, none)) := by
  simp only [detectCache, detectCacheBody, hd]
  generalize resetCache env (doDetect env st task h).storage task = rc
  obtain ⟨v, s1⟩ := rc
  cases v <;> simp [cacheResultString]

/-! ## The fast path -/

theorem detectByReadMetaFile_eq_ok_iff (env : Env) (st : Storage) (taskID : String)
    (m : FileMetadata) (r : CacheResult) :
    detectByReadMetaFile env st taskID m = .ok r ↔
      (env.faults.getPieceMd5Sign = none ∧ env.faults.statDownloadFile = none ∧
        FastChecks st taskID m ∧ r = ⟨-1, (st taskID).journal, some m⟩) := by
  unfold detectByReadMetaFile FastChecks getPieceMd5Sign statDownloadFile
  cases hs : m.Success
  · simp
  · cases hg : env.faults.getPieceMd5Sign with
    | some e => simp
    | none =>
      simp only [Bool.true_eq_false, if_false]
      by_cases hc : m.TotalPieceCount > 0 ∧
          ((st taskID).journal.length : Int) ≠ m.TotalPieceCount
      · rw [if_pos hc]
        constructor
        · intro h; cases h
        · rintro ⟨_, _, ⟨_, h2, _, _⟩, _⟩
          rcases h2 with h2 | h2
          · exact absurd hc.1 h2
          · exact absurd h2 hc.2
      · rw [if_neg hc]
        have hc2 : (¬ m.TotalPieceCount > 0 ∨
            ((st taskID).journal.length : Int) = m.TotalPieceCount) := by
          by_cases h1 : m.TotalPieceCount > 0
          · right; by_contra h2; exact hc ⟨h1, h2⟩
          · left; exact h1
        by_cases hsg : m.PieceMd5Sign ≠ "" ∧ pieceMd5Sign (st taskID).journal ≠ m.PieceMd5Sign
        · rw [if_pos hsg]
          constructor
          · intro h; cases h
          · rintro ⟨_, _, ⟨_, _, h3, _⟩, _⟩
            rcases h3 with h3 | h3
            · exact absurd h3 hsg.1
            · exact absurd h3.symm hsg.2
        · rw [if_neg hsg]
          have hsg2 : (m.PieceMd5Sign = "" ∨
              m.PieceMd5Sign = pieceMd5Sign (st taskID).journal) := by
            by_cases h1 : m.PieceMd5Sign = ""
            · left; exact h1
            · right; by_contra h2; exact hsg ⟨h1, fun h => h2 h.symm⟩
          cases hst : env.faults.statDownloadFile with
          | some e =>
            constructor
            · intro h; cases h
            · rintro ⟨_, h2, _⟩; cases h2
          | none =>
            simp only
            by_cases hsz : m.CdnFileLength = ((st taskID).blob.length : Int)
            · rw [if_neg (fun h => h hsz)]
              constructor
              · intro h
                injection h with h
                exact ⟨trivial, trivial, ⟨trivial, hc2, hsg2, hsz.symm⟩, h.symm⟩
              · rintro ⟨_, _, _, h⟩
                rw [h]
            · rw [if_pos hsz]
              constructor
              · intro h; cases h
              · rintro ⟨_, _, ⟨_, _, _, h4⟩, _⟩
                exact absurd h4.symm hsz

theorem except_ok_or_error {α : Type} (x : Except String α) :
    (∃ a, x = .ok a) ∨ (∃ e, x = .error e) := by
  cases x with
  | ok a => exact Or.inl ⟨a, rfl⟩
  | error e => exact Or.inr ⟨e, rfl⟩

/-! ## The paths of `doDetect` -/

theorem doDetect_fast (env : Env) (st : Storage) (task : SeedTask) (h : List Byte)
    (m : FileMetadata) (req : Request) (hp : PastExpiration env st task m req)
    (hf : m.Finish = true) :
    (doDetect env st task h).ret = detectByReadMetaFile env st task.ID m := by
  obtain ⟨h1, h2, h3, h4⟩ := hp
  simp only [doDetect, h1, h2, h3, h4, hf]
  simp

theorem doDetect_slow (env : Env) (st : Storage) (task : SeedTask) (h : List Byte)
    (m : FileMetadata) (req : Request) (hp : PastExpiration env st task m req)
    (hf : m.Finish = false) (hs : env.origin.isSupportRange (rangeProbe req) = (true, none)) :
    doDetect env st task h = detectByReadFile env st task.ID m h := by
  obtain ⟨h1, h2, h3, h4⟩ := hp
  unfold rangeProbe at hs
  simp only [doDetect, h1, h2, h3, h4, hf, hs]
  simp

/-- The function `doDetect` returns a result only from the fast path of a
finished task or from the slow path of an unfinished one. -/
theorem doDetect_ok_iff (env : Env) (st : Storage) (task : SeedTask) (h : List Byte)
    (r : CacheResult) :
    (doDetect env st task h).ret = .ok r ↔
      ∃ m req, PastExpiration env st task m req ∧
        ((m.Finish = true ∧ detectByReadMetaFile env st task.ID m = .ok r) ∨
         (m.Finish = false ∧ env.origin.isSupportRange (rangeProbe req) = (true, none) ∧
            (detectByReadFile env st task.ID m h).ret = .ok r)) := by
  constructor
  · intro hd
    unfold doDetect at hd
    cases h1 : readFileMetadata env st task.ID with
    | error e => rw [h1] at hd; cases hd
    | ok m =>
      rw [h1] at hd
      simp only at hd
      cases h2 : (checkMetadata env.verbs (some task) (some m)).1 with
      | false => rw [h2] at hd; simp at hd
      | true =>
        rw [h2] at hd
        simp only [Bool.true_eq_false, if_false] at hd
        cases h3 : env.origin.newRequestWithHeader task.RawURL task.Header with
        | error e => rw [h3] at hd; cases hd
        | ok req =>
          rw [h3] at hd
          simp only at hd
          cases h4 : (env.origin.isExpired req
            { LastModified := mapGet m.ExpireInfo LastModified,
              ETag := mapGet m.ExpireInfo ETag }).1 with
          | true => rw [h4] at hd; simp at hd
          | false =>
            rw [h4] at hd
            simp only [Bool.false_eq_true, if_false] at hd
            refine ⟨m, req, ⟨h1, h2, h3, h4⟩, ?_⟩
            cases hf : m.Finish with
            | true =>
              rw [hf] at hd
              simp only [if_true] at hd
              exact Or.inl ⟨rfl, hd⟩
            | false =>
              rw [hf] at hd
              simp only [Bool.false_eq_true, if_false] at hd
              right
              refine ⟨rfl, ?_⟩
              generalize hsup : env.origin.isSupportRange
                { URL := req.URL, Header := req.Header ++ [(RangeHeader, "0-0")] } = sup at hd
              obtain ⟨b, oe⟩ := sup
              cases oe with
              | some e => simp at hd
              | none =>
                cases b with
                | false => simp at hd
                | true =>
                  simp only [if_false, Bool.true_eq_false] at hd
                  exact ⟨by unfold rangeProbe; exact hsup, hd⟩
  · rintro ⟨m, req, hp, hcase⟩
    rcases hcase with ⟨hf, hr⟩ | ⟨hf, hs, hr⟩
    · rw [doDetect_fast env st task h m req hp hf, hr]
    · rw [doDetect_slow env st task h m req hp hf hs, hr]

/-! ## The piece verifier and the slow path (claims C1, C2) -/

/-- C1 (code defect): a short read without I/O error is not reported. On a
stream with only the two bytes 1 2 left, `checkPieceContent` for piece 0 (four
bytes, digest of 1 2 3 4) returns nil after feeding the two bytes to the file
hasher: `io.Copy` gives `n = 2, err = nil`, the test `n != PieceLen` holds, and
`errors.Wrap(nil, ...)` is nil. -/
theorem checkPieceContent_short_read_returns_nil :
    checkPieceContent ⟨[1, 2], none⟩ Scenario.piece0 [] = ⟨none, ⟨[], none⟩, [1, 2]⟩ := by
  decide

theorem int32_of_small (i : Nat) (h : i < 2147483648) : int32 (i : Int) = (i : Int) := by
  unfold int32
  omega

theorem int64_of_small (n : Nat) (h : n < 9223372036854775808) : int64 n = (n : Int) := by
  unfold int64 uint64
  have h2 : n % 18446744073709551616 = n := Nat.mod_eq_of_lt (by omega)
  rw [h2, if_pos h]

theorem detectByReadFile_eq (env : Env) (st : Storage) (taskID : String)
    (metadata : FileMetadata) (fileDigest : List Byte) (reader : Reader)
    (journal : List PieceMetaRecord)
    (hread : readDownloadFile env st taskID = .ok reader)
    (hjournal : readPieceMetaRecords env st taskID = .ok journal) :
    detectByReadFile env st taskID metadata fileDigest =
      (match (if journal.length ≠
            (scanPieces 0 journal ⟨reader, fileDigest, 0, []⟩).pieceMetaRecords.length then
          writePieceMetaRecords env st taskID
            (scanPieces 0 journal ⟨reader, fileDigest, 0, []⟩).pieceMetaRecords
          else (none, st)) with
      | (some err, st1) =>
        ⟨.error ("write piece meta records failed: " ++ err), st1,
          (scanPieces 0 journal ⟨reader, fileDigest, 0, []⟩).fileDigest⟩
      | (none, st1) =>
        ⟨.ok { breakPoint := int64 (scanPieces 0 journal ⟨reader, fileDigest, 0, []⟩).breakPoint,
               pieceMetaRecords :=
                 (scanPieces 0 journal ⟨reader, fileDigest, 0, []⟩).pieceMetaRecords,
               fileMetadata := some metadata }, st1,
          (scanPieces 0 journal ⟨reader, fileDigest, 0, []⟩).fileDigest⟩) := by
  unfold detectByReadFile
  rw [hread, hjournal]
  simp only
  generalize (if journal.length ≠
      (scanPieces 0 journal ⟨reader, fileDigest, 0, []⟩).pieceMetaRecords.length then
        writePieceMetaRecords env st taskID
          (scanPieces 0 journal ⟨reader, fileDigest, 0, []⟩).pieceMetaRecords
      else (none, st)) = w
  obtain ⟨e, s1⟩ := w
  cases e <;> rfl

/-- What the slow path returns when the blob and the journal can be read and
the journal can be rewritten: the records are the longest run of surviving
entries of the on-disk journal (`k` entries: each of the first `k` has its
position as piece number and passes `checkPieceContent` on the next bytes of
the blob, and entry `k`, if there is one, does not), and the break point is
`int64(uint64(EndIndex + 1))` of the last survivor: `0` when nothing survives,
and `EndIndex + 1` itself only when that is below `2^63`. The piece number is
compared as the code does (`int32(index)`), which is the position itself for
every position below `2^31`. -/
theorem detectByReadFile_longest_surviving_run (env : Env) (st : Storage) (taskID : String)
    (metadata : FileMetadata) (fileDigest : List Byte) (reader : Reader)
    (journal : List PieceMetaRecord)
    (hread : readDownloadFile env st taskID = .ok reader)
    (hjournal : readPieceMetaRecords env st taskID = .ok journal)
    (hwrite : env.faults.writePieceMetaRecords = none) :
    ∃ k r, k ≤ journal.length ∧
      (detectByReadFile env st taskID metadata fileDigest).ret = .ok r ∧
      r.pieceMetaRecords = journal.take k ∧
      r.fileMetadata = some metadata ∧
      (∀ i, i < k → Survives 0 reader journal i) ∧
      (k < journal.length → ¬ Survives 0 reader journal k) ∧
      (∀ i e, i < k → i < 2147483648 → journal[i]? = some e → e.PieceNum = (i : Int)) ∧
      r.breakPoint = int64 (lastBreak 0 (journal.take k)) ∧
      (k = 0 → r.breakPoint = 0) ∧
      (∀ e, (journal.take k).getLast? = some e →
        e.OriginRange.EndIndex + 1 < 9223372036854775808 →
        r.breakPoint = (e.OriginRange.EndIndex : Int) + 1) := by
  obtain ⟨k, hk, hrec, _, hbp, hall, hstop⟩ :=
    scanPieces_spec journal 0 ⟨reader, fileDigest, 0, []⟩
  simp only [List.nil_append] at hrec hbp hall hstop
  have hret : (detectByReadFile env st taskID metadata fileDigest).ret =
      .ok { breakPoint := int64 (scanPieces 0 journal ⟨reader, fileDigest, 0, []⟩).breakPoint,
            pieceMetaRecords :=
              (scanPieces 0 journal ⟨reader, fileDigest, 0, []⟩).pieceMetaRecords,
            fileMetadata := some metadata } := by
    rw [detectByReadFile_eq env st taskID metadata fileDigest reader journal hread hjournal]
    unfold writePieceMetaRecords
    rw [hwrite]
    split
    · rename_i e s1 heq
      split at heq <;> cases heq
    · rfl
  refine ⟨k, _, hk, hret, hrec, rfl, hall, hstop, ?_, ?_, ?_, ?_⟩
  · intro i e hi hsmall hget
    obtain ⟨e2, he2, hnum, _⟩ := hall i hi
    rw [hget] at he2
    cases he2
    rw [← hnum]
    simpa using int32_of_small i hsmall
  · simp only [hbp]
  · intro hk0
    subst hk0
    simp only [hbp]
    simp [lastBreak, int64, uint64]
  · intro e hlast hfit
    simp only [hbp]
    unfold lastBreak
    rw [hlast]
    simp only
    have hu : uint64 (e.OriginRange.EndIndex + 1) = e.OriginRange.EndIndex + 1 := by
      unfold uint64; exact Nat.mod_eq_of_lt (by omega)
    rw [hu, int64_of_small _ hfit]
    push_cast
    rfl

/-- The journal of the torn-tail scenario read against the corrupted blob: an
instance of the statement above. The hypotheses hold in the scenario
environment, where no storage operation fails. -/
theorem detectByReadFile_longest_surviving_run_witness :
    (∃ k r, k ≤ Scenario.journal.length ∧
      (detectByReadFile Scenario.env
        (Scenario.storage ⟨some (Scenario.metadata false), Scenario.journal,
          Scenario.tornBlob, none⟩) "T" (Scenario.metadata false) []).ret = .ok r ∧
      r.pieceMetaRecords = Scenario.journal.take k ∧
      r.fileMetadata = some (Scenario.metadata false) ∧
      (∀ i, i < k → Survives 0 ⟨Scenario.tornBlob, none⟩ Scenario.journal i) ∧
      (k < Scenario.journal.length → ¬ Survives 0 ⟨Scenario.tornBlob, none⟩ Scenario.journal k) ∧
      (∀ i e, i < k → i < 2147483648 → Scenario.journal[i]? = some e → e.PieceNum = (i : Int)) ∧
      r.breakPoint = int64 (lastBreak 0 (Scenario.journal.take k)) ∧
      (k = 0 → r.breakPoint = 0) ∧
      (∀ e, (Scenario.journal.take k).getLast? = some e →
        e.OriginRange.EndIndex + 1 < 9223372036854775808 →
        r.breakPoint = (e.OriginRange.EndIndex : Int) + 1)) :=
  detectByReadFile_longest_surviving_run Scenario.env
    (Scenario.storage ⟨some (Scenario.metadata false), Scenario.journal,
      Scenario.tornBlob, none⟩) "T" (Scenario.metadata false) [] ⟨Scenario.tornBlob, none⟩
    Scenario.journal rfl rfl rfl

set_option maxRecDepth 1000000 in
/-- C2 (code defect, the one of C14): the journal holds one entry whose bytes
are on disk and whose `OriginRange.EndIndex` is `2^64 - 1`. The entry survives
and is returned, but the break point returned with it is `0`, not
`EndIndex + 1 = 2^64`: the addition wraps around in `uint64`. (The returned
records are the longest run of surviving entries, as the claim says.) -/
theorem detectByReadFile_breakPoint_wraps_to_zero :
    (detectByReadFile Scenario.env
        (Scenario.storage
          ⟨some (Scenario.metadata false), [Scenario.wrapPiece], Scenario.blob.take 4, none⟩)
        "T" (Scenario.metadata false) []).ret =
      .ok ⟨0, [Scenario.wrapPiece], some (Scenario.metadata false)⟩ ∧
    ((0 : Int) ≠ (Scenario.wrapPiece.OriginRange.EndIndex : Int) + 1) := by
  exact ⟨rfl, by decide⟩


/-! ## The fast path (claims C3, C4) -/

set_option maxRecDepth 1000000 in
/-- C3, counterexample to the claim as stated: the stored metadata has
`Finish = true` and `Success = true`, the blob has the recorded size and the
recorded piece sign is the recomputed one, yet the probe reports the resource
expired, so `detectCache` resets and returns break point `0`, not `-1`. -/
theorem detectCache_full_metadata_but_expired :
    (Scenario.metadata true).Finish = true ∧ (Scenario.metadata true).Success = true ∧
    ((Scenario.blob.length : Int) = (Scenario.metadata true).CdnFileLength) ∧
    ({ Scenario.metadata true with PieceMd5Sign := "abdd9aa5ab82072b089ba8f8fc8365af" }
        : FileMetadata).PieceMd5Sign = pieceMd5Sign Scenario.journal ∧
    (detectCache
        { Scenario.env with
          origin := { Scenario.origin with isExpired := fun _ _ => (true, none) } }
        (Scenario.storage
          ⟨some { Scenario.metadata true with
                  PieceMd5Sign := "abdd9aa5ab82072b089ba8f8fc8365af" },
            Scenario.journal, Scenario.blob, none⟩)
        Scenario.task []).ret =
      .returned (some ⟨0, [], some (freshMetadata Scenario.task)⟩, none) := by
  decide

/-- C3 (amended): `detectCache` returns a result with break point `-1` for a
finished task (the returned metadata has `Finish = true`) exactly when the
fast path is taken and succeeds: the stored metadata is read and passes the
identity check, the request to the origin is built and the probe does not
report the resource expired, `Finish` and `Success` are true, the journal is
read, the piece count and the piece sign agree when they are recorded, and
the blob is stat'ed with the recorded size. -/
theorem detectCache_full_hit_iff (env : Env) (st : Storage) (task : SeedTask)
    (fileDigest : List Byte) :
    (∃ r m, (detectCache env st task fileDigest).ret = .returned (some r, none) ∧
        r.breakPoint = -1 ∧ r.fileMetadata = some m ∧ m.Finish = true) ↔
      FastPathSucceeds env st task := by
  constructor
  · rintro ⟨r, m, hret, hbp, hmeta, hfin⟩
    rcases except_ok_or_error (doDetect env st task fileDigest).ret with ⟨r2, hd⟩ | ⟨e, hd⟩
    · rw [detectCache_of_ok env st task fileDigest r2 hd] at hret
      injection hret with hret
      injection hret with hret _
      injection hret with hret
      subst hret
      obtain ⟨m2, req, hp, hcase⟩ := (doDetect_ok_iff env st task fileDigest r2).1 hd
      rcases hcase with ⟨hf, hfast⟩ | ⟨hf, _, hslow⟩
      · obtain ⟨hg, hs, hc, _⟩ :=
          (detectByReadMetaFile_eq_ok_iff env st task.ID m2 r2).1 hfast
        exact ⟨m2, req, hp, hf, hg, hs, hc⟩
      · exfalso
        have hm : r2.fileMetadata = some m2 := by
          unfold detectByReadFile at hslow
          split at hslow
          · cases hslow
          · split at hslow
            · cases hslow
            · simp only at hslow
              split at hslow
              · cases hslow
              · injection hslow with hslow
                rw [← hslow]
        rw [hm] at hmeta
        injection hmeta with hmeta
        rw [hmeta] at hf
        rw [hf] at hfin
        cases hfin
    · exfalso
      rw [detectCache_of_error env st task fileDigest e hd] at hret
      cases hrc : (resetCache env (doDetect env st task fileDigest).storage task).1 with
      | error e2 => rw [hrc] at hret; cases hret
      | ok fresh =>
        rw [hrc] at hret
        injection hret with hret
        injection hret with hret _
        injection hret with hret
        rw [← hret] at hbp
        simp at hbp
  · rintro ⟨m, req, hp, hf, hg, hs, hc⟩
    have hfast : detectByReadMetaFile env st task.ID m =
        .ok ⟨-1, (st task.ID).journal, some m⟩ :=
      (detectByReadMetaFile_eq_ok_iff env st task.ID m _).2 ⟨hg, hs, hc, rfl⟩
    have hd : (doDetect env st task fileDigest).ret =
        .ok ⟨-1, (st task.ID).journal, some m⟩ := by
      rw [doDetect_fast env st task fileDigest m req hp hf, hfast]
    exact ⟨_, m, detectCache_of_ok env st task fileDigest _ hd, rfl, rfl, hf⟩

/-- C4: when the journal read and the blob stat both succeed,
`detectByReadMetaFile` returns break point `-1` with the journal and the given
metadata exactly when the success flag is set, the piece count agrees or is
not positive, the piece sign agrees or is empty, and the blob has the recorded
size; otherwise it returns an error. With `TotalPieceCount = 0` and an empty
`PieceMd5Sign` the verdict is therefore that of the success flag and of the
size alone. -/
theorem detectByReadMetaFile_exactly_when (env : Env) (st : Storage) (taskID : String)
    (m : FileMetadata) (hjournal : env.faults.getPieceMd5Sign = none)
    (hstat : env.faults.statDownloadFile = none) :
    (FastChecks st taskID m →
      detectByReadMetaFile env st taskID m = .ok ⟨-1, (st taskID).journal, some m⟩) ∧
    (¬ FastChecks st taskID m → ∃ e, detectByReadMetaFile env st taskID m = .error e) ∧
    (m.TotalPieceCount = 0 → m.PieceMd5Sign = "" →
      (FastChecks st taskID m ↔
        (m.Success = true ∧ ((st taskID).blob.length : Int) = m.CdnFileLength))) := by
  refine ⟨?_, ?_, ?_⟩
  · intro hc
    exact (detectByReadMetaFile_eq_ok_iff env st taskID m _).2 ⟨hjournal, hstat, hc, rfl⟩
  · intro hc
    rcases except_ok_or_error (detectByReadMetaFile env st taskID m) with ⟨r, hr⟩ | ⟨e, he⟩
    · exact absurd ((detectByReadMetaFile_eq_ok_iff env st taskID m r).1 hr).2.2.1 hc
    · exact ⟨e, he⟩
  · intro h0 hsign
    unfold FastChecks
    constructor
    · rintro ⟨h1, _, _, h4⟩
      exact ⟨h1, h4⟩
    · rintro ⟨h1, h4⟩
      exact ⟨h1, Or.inl (by omega), Or.inl hsign, h4⟩

set_option maxRecDepth 1000000 in
/-- C4 at the full-hit scenario, whose metadata records no piece count and no
piece sign: the journal of three pieces is accepted unchecked; and with a blob
of nine bytes instead of ten the same metadata is rejected. -/
theorem detectByReadMetaFile_exactly_when_witness :
    (detectByReadMetaFile Scenario.env
        (Scenario.storage ⟨some (Scenario.metadata true), Scenario.journal, Scenario.blob, none⟩)
        "T" (Scenario.metadata true) =
      .ok ⟨-1, Scenario.journal, some (Scenario.metadata true)⟩) ∧
    (∃ e, detectByReadMetaFile Scenario.env
        (Scenario.storage ⟨some (Scenario.metadata true), Scenario.journal,
          Scenario.blob.take 9, none⟩)
        "T" (Scenario.metadata true) = .error e) :=
  ⟨(detectByReadMetaFile_exactly_when Scenario.env
      (Scenario.storage ⟨some (Scenario.metadata true), Scenario.journal, Scenario.blob, none⟩)
      "T" (Scenario.metadata true) rfl rfl).1 (by unfold FastChecks; decide),
   (detectByReadMetaFile_exactly_when Scenario.env
      (Scenario.storage ⟨some (Scenario.metadata true), Scenario.journal,
        Scenario.blob.take 9, none⟩)
      "T" (Scenario.metadata true) rfl rfl).2.1 (by unfold FastChecks; decide)⟩


/-! ## Reset (claims C5, C6, C7) -/

theorem doDetect_error_of_recoverable (env : Env) (st : Storage) (task : SeedTask)
    (fileDigest : List Byte) (h : Recoverable env st task) :
    ∃ e, (doDetect env st task fileDigest).ret = .error e := by
  rcases except_ok_or_error (doDetect env st task fileDigest).ret with ⟨r, hd⟩ | he
  · exfalso
    obtain ⟨m, req, ⟨h1, h2, h3, h4⟩, hcase⟩ := (doDetect_ok_iff env st task fileDigest r).1 hd
    rcases h with ⟨e, he⟩ | ⟨m2, hm2, hrest⟩
    · rw [h1] at he; cases he
    · rw [h1] at hm2
      injection hm2 with hm2
      subst hm2
      rcases hrest with hid | ⟨req2, hreq2, hexp⟩ | ⟨hf, hnc⟩ | ⟨hf, req2, hreq2, hsup⟩
      · rw [h2] at hid; cases hid
      · rw [h3] at hreq2
        injection hreq2 with hreq2
        subst hreq2
        rw [h4] at hexp; cases hexp
      · rcases hcase with ⟨_, hfast⟩ | ⟨hf2, _, _⟩
        · exact hnc ((detectByReadMetaFile_eq_ok_iff env st task.ID m r).1 hfast).2.2.1
        · rw [hf] at hf2; cases hf2
      · rw [h3] at hreq2
        injection hreq2 with hreq2
        subst hreq2
        rcases hcase with ⟨hf2, _⟩ | ⟨_, hs, _⟩
        · rw [hf] at hf2; cases hf2
        · rw [hs] at hsup; cases hsup
  · exact he

/-- C5: whenever the detection meets a recoverable inconsistency and the reset
succeeds (`resetRepo` and `writeFileMetadataByTask` do not fail), `detectCache`
returns no error and the result with break point `0`, no records, and the
fresh metadata record that `writeFileMetadataByTask(task)` returned, whatever
the storage held before (the journal included). -/
theorem detectCache_recoverable_gives_empty_result (env : Env) (st : Storage)
    (task : SeedTask) (fileDigest : List Byte) (h : Recoverable env st task)
    (hreset : env.faults.resetRepo = none)
    (hwrite : env.faults.writeFileMetadataByTask = none) :
    ∃ fresh,
      (writeFileMetadataByTask env
        (resetRepo env (doDetect env st task fileDigest).storage task).2 task).1 = .ok fresh ∧
      (detectCache env st task fileDigest).ret =
        .returned (some ⟨0, [], some fresh⟩, none) := by
  obtain ⟨e, he⟩ := doDetect_error_of_recoverable env st task fileDigest h
  refine ⟨freshMetadata task, ?_, detectCache_of_reset env st task fileDigest e he hreset hwrite⟩
  simp [writeFileMetadataByTask, hwrite]

set_option maxRecDepth 1000000 in
/-- C5 at the identity-drift scenario: the metadata on disk carries another
task URL than the task, a finished journal and blob are on disk, and the
detection returns the empty result with the fresh metadata. -/
theorem detectCache_recoverable_gives_empty_result_witness :
    ∃ fresh,
      (writeFileMetadataByTask Scenario.env
        (resetRepo Scenario.env
          (doDetect Scenario.env
            (Scenario.storage
              ⟨some { Scenario.metadata true with TaskURL := "http://origin/other" },
                Scenario.journal, Scenario.blob, none⟩) Scenario.task []).storage
          Scenario.task).2 Scenario.task).1 = .ok fresh ∧
      (detectCache Scenario.env
        (Scenario.storage
          ⟨some { Scenario.metadata true with TaskURL := "http://origin/other" },
            Scenario.journal, Scenario.blob, none⟩) Scenario.task []).ret =
        .returned (some ⟨0, [], some fresh⟩, none) :=
  detectCache_recoverable_gives_empty_result Scenario.env
    (Scenario.storage
      ⟨some { Scenario.metadata true with TaskURL := "http://origin/other" },
        Scenario.journal, Scenario.blob, none⟩) Scenario.task []
    (Or.inr ⟨{ Scenario.metadata true with TaskURL := "http://origin/other" }, rfl,
      Or.inl (by decide)⟩) rfl rfl

set_option maxRecDepth 1000000 in
/-- C6 (code defect): no metadata is stored for the task and `resetRepo` fails.
The body of `detectCache` leaves with `(nil, "reset cache failed: ...")`, but
the deferred closure then evaluates `result.String()` on the nil result and
panics, so the caller receives a panic instead of the error. -/
theorem detectCache_failed_resetRepo_panics :
    (detectCacheBody
        { Scenario.env with faults := { Scenario.noFaults with resetRepo := some "disk failure" } }
        (Scenario.storage ⟨none, Scenario.journal, Scenario.blob, none⟩)
        Scenario.task []).ret = (none, some "reset cache failed: disk failure") ∧
    (detectCache
        { Scenario.env with faults := { Scenario.noFaults with resetRepo := some "disk failure" } }
        (Scenario.storage ⟨none, Scenario.journal, Scenario.blob, none⟩)
        Scenario.task []).ret =
      .panicked "runtime error: invalid memory address or nil pointer dereference" := by
  decide

/-- C7 (code defect): on every input on which the detection fails and the
reset fails too, `detectCache` does not terminate normally: the deferred
`result.String()` dereferences the nil result and the call panics. -/
theorem detectCache_panics_when_reset_fails (env : Env) (st : Storage) (task : SeedTask)
    (fileDigest : List Byte) (e e2 : String)
    (hd : (doDetect env st task fileDigest).ret = .error e)
    (hr : (resetCache env (doDetect env st task fileDigest).storage task).1 = .error e2) :
    (detectCache env st task fileDigest).ret =
      .panicked "runtime error: invalid memory address or nil pointer dereference" := by
  rw [detectCache_of_error env st task fileDigest e hd, hr]

set_option maxRecDepth 1000000 in
/-- C7 at a concrete input: the stored metadata fails the identity check and
writing the fresh metadata fails after the repository was reset. -/
theorem detectCache_panics_when_reset_fails_witness :
    (detectCache
        { Scenario.env with
          faults := { Scenario.noFaults with writeFileMetadataByTask := some "disk full" } }
        (Scenario.storage
          ⟨some { Scenario.metadata true with TaskURL := "http://origin/other" },
            Scenario.journal, Scenario.blob, none⟩) Scenario.task []).ret =
      .panicked "runtime error: invalid memory address or nil pointer dereference" :=
  detectCache_panics_when_reset_fails _ _ _ _
    ("fileMetadata has been modified: metadata taskURL(http://origin/other) is not equals " ++
      "with task taskURL(http://origin/file)")
    "disk full" rfl rfl


/-! ## Expiration probe, storage failures, running hasher (claims C8, C9, C10) -/

/-- C8 (code defect): the probe answers `(true, err)` on the full-hit storage.
The error is only logged, the boolean is used as it came, and `doDetect` fails
with "resource ... has expired" instead of going on to the fast path. -/
theorem doDetect_probe_error_with_true_is_expired :
    (doDetect
        { Scenario.env with
          origin := { Scenario.origin with
                      isExpired := fun _ _ => (true, some "probe timeout") } }
        (Scenario.storage ⟨some (Scenario.metadata true), Scenario.journal, Scenario.blob, none⟩)
        Scenario.task []).ret = .error "resource http://origin/file has expired" := by
  rfl

set_option maxRecDepth 1000000 in
/-- C9, counterexample to the claim as stated: on the full-hit storage the
blob stat fails with an I/O error on the fast path; `doDetect` fails with that
error, and `detectCache` answers with a reset and returns the empty result and
no error. -/
theorem detectCache_stat_failure_is_reset :
    (doDetect
        { Scenario.env with
          faults := { Scenario.noFaults with statDownloadFile := some "input/output error" } }
        (Scenario.storage ⟨some (Scenario.metadata true), Scenario.journal, Scenario.blob, none⟩)
        Scenario.task []).ret = .error "stat download file info: input/output error" ∧
    (detectCache
        { Scenario.env with
          faults := { Scenario.noFaults with statDownloadFile := some "input/output error" } }
        (Scenario.storage ⟨some (Scenario.metadata true), Scenario.journal, Scenario.blob, none⟩)
        Scenario.task []).ret =
      .returned (some ⟨0, [], some (freshMetadata Scenario.task)⟩, none) := by
  exact ⟨rfl, by decide⟩

theorem doDetect_error_of_storage_failure (env : Env) (st : Storage) (task : SeedTask)
    (fileDigest : List Byte) (h : StorageFailure env st task fileDigest) :
    ∃ e, (doDetect env st task fileDigest).ret = .error e := by
  obtain ⟨m, req, hp, hcase⟩ := h
  rcases hcase with ⟨hf, hstat⟩ | ⟨hf, hs, hio⟩
  · rw [doDetect_fast env st task fileDigest m req hp hf]
    rcases except_ok_or_error (detectByReadMetaFile env st task.ID m) with ⟨r, hr⟩ | he
    · exact absurd ((detectByReadMetaFile_eq_ok_iff env st task.ID m r).1 hr).2.1 hstat
    · exact he
  · rw [doDetect_slow env st task fileDigest m req hp hf hs]
    rcases hio with hopen | hread | ⟨e, _, hw⟩
    · cases ho : env.faults.readDownloadFile with
      | none => exact absurd ho hopen
      | some e =>
        exact ⟨"read download data file: " ++ e, by simp [detectByReadFile, readDownloadFile, ho]⟩
    · cases hj : env.faults.readPieceMetaRecords with
      | none => exact absurd hj hread
      | some e =>
        unfold detectByReadFile
        cases readDownloadFile env st task.ID with
        | error e2 => exact ⟨_, rfl⟩
        | ok reader =>
          exact ⟨"read piece meta records: " ++ e, by simp [readPieceMetaRecords, hj]⟩
    · exact ⟨_, hw⟩

/-- C9 (amended): a storage adapter I/O error during detection (the blob stat
failing on the fast path; opening the blob, reading the journal or rewriting
the journal failing on the slow path) does not escape `detectCache`: like every
other failure of `doDetect` it is answered by a reset, and when the reset
succeeds `detectCache` returns no error and the empty result with the fresh
metadata. -/
theorem detectCache_storage_failure_gives_empty_result (env : Env) (st : Storage)
    (task : SeedTask) (fileDigest : List Byte) (h : StorageFailure env st task fileDigest)
    (hreset : env.faults.resetRepo = none)
    (hwrite : env.faults.writeFileMetadataByTask = none) :
    (∃ e, (doDetect env st task fileDigest).ret = .error e) ∧
    (detectCache env st task fileDigest).ret =
      .returned (some ⟨0, [], some (freshMetadata task)⟩, none) := by
  obtain ⟨e, he⟩ := doDetect_error_of_storage_failure env st task fileDigest h
  exact ⟨⟨e, he⟩, detectCache_of_reset env st task fileDigest e he hreset hwrite⟩

set_option maxRecDepth 1000000 in
/-- C9 (amended) at the torn-tail scenario with a failing journal rewrite: the
slow path drops piece 2, the rewrite of the journal fails, and the detection
ends in a reset with the empty result. -/
theorem detectCache_storage_failure_gives_empty_result_witness :
    (∃ e, (doDetect
        { Scenario.env with
          faults := { Scenario.noFaults with writePieceMetaRecords := some "read-only volume" } }
        (Scenario.storage
          ⟨some (Scenario.metadata false), Scenario.journal, Scenario.tornBlob, none⟩)
        Scenario.task []).ret = .error e) ∧
    (detectCache
        { Scenario.env with
          faults := { Scenario.noFaults with writePieceMetaRecords := some "read-only volume" } }
        (Scenario.storage
          ⟨some (Scenario.metadata false), Scenario.journal, Scenario.tornBlob, none⟩)
        Scenario.task []).ret =
      .returned (some ⟨0, [], some (freshMetadata Scenario.task)⟩, none) :=
  detectCache_storage_failure_gives_empty_result _ _ _ _
    ⟨Scenario.metadata false, ⟨"http://origin/file", []⟩, ⟨rfl, by decide, rfl, rfl⟩,
      Or.inr ⟨rfl, rfl, Or.inr (Or.inr ⟨"read-only volume", rfl, rfl⟩)⟩⟩
    rfl rfl

set_option maxRecDepth 1000000 in
/-- C10, counterexample to the claim as stated (the torn-tail scenario: pieces
of 4, 4 and 2 bytes, the byte at offset 8 corrupted): `detectByReadFile`
returns pieces 0 and 1 with break point 8, and the running hasher has absorbed
all ten bytes of the blob, the two bytes of the torn piece included, not just
the bytes `[0,8)`. -/
theorem detectByReadFile_hasher_absorbs_torn_piece :
    (detectByReadFile Scenario.env
        (Scenario.storage
          ⟨some (Scenario.metadata false), Scenario.journal, Scenario.tornBlob, none⟩)
        "T" (Scenario.metadata false) []).ret =
      .ok ⟨8, [Scenario.piece0, Scenario.piece1], some (Scenario.metadata false)⟩ ∧
    (detectByReadFile Scenario.env
        (Scenario.storage
          ⟨some (Scenario.metadata false), Scenario.journal, Scenario.tornBlob, none⟩)
        "T" (Scenario.metadata false) []).fileDigest = [1, 2, 3, 4, 5, 6, 7, 8, 0, 10] ∧
    (detectByReadFile Scenario.env
        (Scenario.storage
          ⟨some (Scenario.metadata false), Scenario.journal, Scenario.tornBlob, none⟩)
        "T" (Scenario.metadata false) []).fileDigest ≠ Scenario.tornBlob.take 8 := by
  refine ⟨rfl, by decide, by decide⟩

/-- C10 (amended): after `detectByReadFile` returns a result, the running
hasher has absorbed, after what it held, exactly the bytes the scan read from
the blob: the bytes of the slots of the returned records and, when the scan
stopped at an entry whose piece number was its position (so that its content
was read and rejected), also the bytes read for that torn entry, up to its
`PieceLen`. -/
theorem detectByReadFile_hasher_absorbs_bytes_read (env : Env) (st : Storage)
    (taskID : String) (metadata : FileMetadata) (fileDigest : List Byte) (reader : Reader)
    (journal : List PieceMetaRecord) (r : CacheResult)
    (hread : readDownloadFile env st taskID = .ok reader)
    (hjournal : readPieceMetaRecords env st taskID = .ok journal)
    (hret : (detectByReadFile env st taskID metadata fileDigest).ret = .ok r) :
    (detectByReadFile env st taskID metadata fileDigest).fileDigest =
      fileDigest ++ reader.data.take
        (consumed r.pieceMetaRecords + tornLen 0 journal r.pieceMetaRecords.length) := by
  obtain ⟨k, hk, hrec, hdig, _, _, _⟩ :=
    scanPieces_spec journal 0 ⟨reader, fileDigest, 0, []⟩
  simp only [List.nil_append] at hrec hdig
  rw [detectByReadFile_eq env st taskID metadata fileDigest reader journal hread hjournal]
    at hret ⊢
  generalize (if journal.length ≠
      (scanPieces 0 journal ⟨reader, fileDigest, 0, []⟩).pieceMetaRecords.length then
        writePieceMetaRecords env st taskID
          (scanPieces 0 journal ⟨reader, fileDigest, 0, []⟩).pieceMetaRecords
      else (none, st)) = w at hret ⊢
  obtain ⟨we, s1⟩ := w
  cases we with
  | some e => cases hret
  | none =>
    simp only at hret ⊢
    injection hret with hret
    rw [← hret]
    simp only
    rw [hdig, hrec, List.length_take, Nat.min_eq_left hk]

set_option maxRecDepth 1000000 in
/-- C10 (amended) at the torn-tail scenario: the hasher holds the eight bytes
of pieces 0 and 1 and the two bytes read for the torn piece 2. -/
theorem detectByReadFile_hasher_absorbs_bytes_read_witness :
    (detectByReadFile Scenario.env
        (Scenario.storage
          ⟨some (Scenario.metadata false), Scenario.journal, Scenario.tornBlob, none⟩)
        "T" (Scenario.metadata false) []).fileDigest =
      [] ++ Scenario.tornBlob.take
        (consumed [Scenario.piece0, Scenario.piece1] + tornLen 0 Scenario.journal 2) :=
  detectByReadFile_hasher_absorbs_bytes_read Scenario.env
    (Scenario.storage
      ⟨some (Scenario.metadata false), Scenario.journal, Scenario.tornBlob, none⟩)
    "T" (Scenario.metadata false) [] ⟨Scenario.tornBlob, none⟩ Scenario.journal
    ⟨8, [Scenario.piece0, Scenario.piece1], some (Scenario.metadata false)⟩ rfl rfl rfl


/-! ## The hasher and the returned digests (claims C11, C12) -/

/-- C11: for every stream, journal entry and hasher state, `checkPieceContent`
feeds the running file hasher exactly the bytes it read from the stream, in
order: the hasher afterwards holds what it held followed by bytes `got`, the
stream held `got` followed by what it still holds, and `got` has
`min(PieceLen, bytes available)` bytes (none for a negative `PieceLen`). This
holds whatever the call returns. -/
theorem checkPieceContent_feeds_bytes_read (reader : Reader) (e : PieceMetaRecord)
    (fileDigest : List Byte) :
    ∃ got : List Byte,
      (checkPieceContent reader e fileDigest).fileDigest = fileDigest ++ got ∧
      reader.data = got ++ (checkPieceContent reader e fileDigest).reader.data ∧
      got.length = min e.PieceLen.toNat reader.data.length ∧
      (0 ≤ e.PieceLen → (got.length : Int) = min e.PieceLen (reader.data.length : Int)) := by
  refine ⟨reader.data.take e.PieceLen.toNat, checkPieceContent_fileDigest reader e fileDigest,
    ?_, List.length_take _ _, ?_⟩
  · rw [checkPieceContent_reader]
    exact (List.take_append_drop _ _).symm
  · intro h
    rw [List.length_take]
    omega

set_option maxRecDepth 1000000 in
/-- C12 (code defect, the one of C1): on the blob cut short after six bytes the
slow path returns all three journal entries with break point 10, although the
slot of piece 1 holds only the two bytes 5 6, whose digest is not the recorded
one, and the slot of piece 2 is empty: the short reads of `checkPieceContent`
are not reported. -/
theorem detectByReadFile_keeps_pieces_of_short_blob :
    (detectByReadFile Scenario.env
        (Scenario.storage
          ⟨some (Scenario.metadata false), Scenario.journal, Scenario.shortBlob, none⟩)
        "T" (Scenario.metadata false) []).ret =
      .ok ⟨10, Scenario.journal, some (Scenario.metadata false)⟩ ∧
    (Scenario.shortBlob.drop 4).take 4 = [5, 6] ∧
    md5Hex ((Scenario.shortBlob.drop 4).take 4) ≠ Scenario.piece1.Md5 ∧
    (Scenario.shortBlob.drop 8).take 2 = [] ∧
    md5Hex ((Scenario.shortBlob.drop 8).take 2) ≠ Scenario.piece2.Md5 := by
  refine ⟨rfl, by decide, by decide, by decide, by decide⟩


/-! ## Journal rewrite and the range of the break point (claims C13, C14) -/

theorem readPieceMetaRecords_ok (env : Env) (st : Storage) (taskID : String)
    (journal : List PieceMetaRecord) (h : readPieceMetaRecords env st taskID = .ok journal) :
    journal = (st taskID).journal := by
  unfold readPieceMetaRecords at h
  split at h
  · cases h
  · injection h with h
    exact h.symm

/-- C13: after a successful `detectByReadFile`, the returned records are a
leading part of the journal read from disk; the storage is the one left by
`writePieceMetaRecords` with the returned records when these are fewer than
the journal read (and that write did not fail), and is the storage as it was
when every entry survived; in both cases the journal on disk afterwards is
the returned sequence of records. -/
theorem detectByReadFile_journal_rewritten_iff_shorter (env : Env) (st : Storage)
    (taskID : String) (metadata : FileMetadata) (fileDigest : List Byte) (reader : Reader)
    (journal : List PieceMetaRecord) (r : CacheResult)
    (hread : readDownloadFile env st taskID = .ok reader)
    (hjournal : readPieceMetaRecords env st taskID = .ok journal)
    (hret : (detectByReadFile env st taskID metadata fileDigest).ret = .ok r) :
    (∃ rest, r.pieceMetaRecords ++ rest = journal) ∧
    r.pieceMetaRecords.length ≤ journal.length ∧
    (r.pieceMetaRecords.length < journal.length →
      env.faults.writePieceMetaRecords = none ∧
      (detectByReadFile env st taskID metadata fileDigest).storage =
        (writePieceMetaRecords env st taskID r.pieceMetaRecords).2) ∧
    (r.pieceMetaRecords.length = journal.length →
      (detectByReadFile env st taskID metadata fileDigest).storage = st) ∧
    ((detectByReadFile env st taskID metadata fileDigest).storage taskID).journal =
      r.pieceMetaRecords := by
  obtain ⟨k, hk, hrec, _, _, _, _⟩ :=
    scanPieces_spec journal 0 ⟨reader, fileDigest, 0, []⟩
  simp only [List.nil_append] at hrec
  have hj := readPieceMetaRecords_ok env st taskID journal hjournal
  rw [detectByReadFile_eq env st taskID metadata fileDigest reader journal hread hjournal]
    at hret ⊢
  rw [hrec] at hret ⊢
  have hlen : (journal.take k).length = k := by
    rw [List.length_take, Nat.min_eq_left hk]
  rw [hlen] at hret ⊢
  by_cases hkl : journal.length = k
  · rw [if_neg (fun h => h hkl)] at hret ⊢
    simp only at hret
    injection hret with hret
    rw [← hret]
    have htake : journal.take k = journal := by
      rw [← hkl]; exact List.take_length journal
    refine ⟨⟨journal.drop k, List.take_append_drop k journal⟩, ?_, ?_, fun _ => rfl, ?_⟩
    · show (journal.take k).length ≤ journal.length
      omega
    · intro hlt
      have hlt2 : (journal.take k).length < journal.length := hlt
      omega
    · show (st taskID).journal = journal.take k
      rw [htake, hj]
  · rw [if_pos hkl] at hret ⊢
    unfold writePieceMetaRecords at hret ⊢
    cases hw : env.faults.writePieceMetaRecords with
    | some e => rw [hw] at hret; cases hret
    | none =>
      rw [hw] at hret
      simp only at hret
      injection hret with hret
      rw [← hret]
      refine ⟨⟨journal.drop k, List.take_append_drop k journal⟩, ?_, fun _ => ⟨rfl, rfl⟩,
        ?_, ?_⟩
      · show (journal.take k).length ≤ journal.length
        omega
      · intro h
        have h2 : (journal.take k).length = journal.length := h
        omega
      · show (Function.update st taskID
            { st taskID with journal := journal.take k } taskID).journal = journal.take k
        rw [Function.update_same]

set_option maxRecDepth 1000000 in
/-- C13 at the torn-tail scenario: pieces 0 and 1 are returned and the journal
on disk holds these two entries afterwards. -/
theorem detectByReadFile_journal_rewritten_iff_shorter_witness :
    ((detectByReadFile Scenario.env
        (Scenario.storage
          ⟨some (Scenario.metadata false), Scenario.journal, Scenario.tornBlob, none⟩)
        "T" (Scenario.metadata false) []).storage "T").journal =
      [Scenario.piece0, Scenario.piece1] :=
  (detectByReadFile_journal_rewritten_iff_shorter Scenario.env
    (Scenario.storage
      ⟨some (Scenario.metadata false), Scenario.journal, Scenario.tornBlob, none⟩)
    "T" (Scenario.metadata false) [] ⟨Scenario.tornBlob, none⟩ Scenario.journal
    ⟨8, [Scenario.piece0, Scenario.piece1], some (Scenario.metadata false)⟩
    rfl rfl rfl).2.2.2.2

set_option maxRecDepth 1000000 in
/-- C14 (code defect): the journal holds one entry whose bytes are on disk and
whose `OriginRange.EndIndex` is `2^64 - 2`. The slow path computes the break
point `2^64 - 1` in `uint64` and returns `int64(breakPoint)`, which is `-1`:
negative, and the value that stands for a fully cached task. -/
theorem detectByReadFile_breakPoint_minus_one :
    (detectByReadFile Scenario.env
        (Scenario.storage
          ⟨some (Scenario.metadata false), [Scenario.farPiece], Scenario.blob.take 4, none⟩)
        "T" (Scenario.metadata false) []).ret =
      .ok ⟨-1, [Scenario.farPiece], some (Scenario.metadata false)⟩ := by
  rfl

/-- The break point of the slow path is not negative when `EndIndex + 1` of
every journal entry fits an `int64`. -/
theorem detectByReadFile_breakPoint_nonneg (env : Env) (st : Storage) (taskID : String)
    (metadata : FileMetadata) (fileDigest : List Byte) (reader : Reader)
    (journal : List PieceMetaRecord) (r : CacheResult)
    (hread : readDownloadFile env st taskID = .ok reader)
    (hjournal : readPieceMetaRecords env st taskID = .ok journal)
    (hret : (detectByReadFile env st taskID metadata fileDigest).ret = .ok r)
    (hfit : ∀ e ∈ journal, e.OriginRange.EndIndex + 1 < 9223372036854775808) :
    0 ≤ r.breakPoint := by
  obtain ⟨k, hk, _, _, hbp, _, _⟩ :=
    scanPieces_spec journal 0 ⟨reader, fileDigest, 0, []⟩
  rw [detectByReadFile_eq env st taskID metadata fileDigest reader journal hread hjournal]
    at hret
  generalize (if journal.length ≠
      (scanPieces 0 journal ⟨reader, fileDigest, 0, []⟩).pieceMetaRecords.length then
        writePieceMetaRecords env st taskID
          (scanPieces 0 journal ⟨reader, fileDigest, 0, []⟩).pieceMetaRecords
      else (none, st)) = w at hret
  obtain ⟨we, s1⟩ := w
  cases we with
  | some e => cases hret
  | none =>
    simp only at hret
    injection hret with hret
    rw [← hret]
    simp only [hbp]
    unfold lastBreak
    cases hl : (journal.take k).getLast? with
    | none => simp [int64, uint64]
    | some e =>
      simp only
      have hmem : e ∈ journal :=
        List.mem_of_mem_take (List.mem_of_getLast?_eq_some hl)
      have hlt := hfit e hmem
      have hu : uint64 (e.OriginRange.EndIndex + 1) = e.OriginRange.EndIndex + 1 := by
        unfold uint64; exact Nat.mod_eq_of_lt (by omega)
      rw [hu, int64_of_small _ hlt]
      omega


/-! ## Full hits and the access time (claims C15, C16) -/

set_option maxRecDepth 1000000 in
/-- C15 (code defect, the one of C14): an unfinished task whose journal holds
one entry with `OriginRange.EndIndex = 2^64 - 2`. `detectCache` takes the slow
path and returns break point `-1`, and the running file hasher has absorbed
the four bytes of the piece: a result with break point `-1` that is not
read-only. -/
theorem detectCache_minus_one_with_advanced_hasher :
    (detectCache Scenario.env
        (Scenario.storage
          ⟨some (Scenario.metadata false), [Scenario.farPiece], Scenario.blob.take 4, none⟩)
        Scenario.task []).ret =
      .returned (some ⟨-1, [Scenario.farPiece], some (Scenario.metadata false)⟩, none) ∧
    (detectCache Scenario.env
        (Scenario.storage
          ⟨some (Scenario.metadata false), [Scenario.farPiece], Scenario.blob.take 4, none⟩)
        Scenario.task []).fileDigest = [1, 2, 3, 4] := by
  decide

theorem doDetect_fast_eq (env : Env) (st : Storage) (task : SeedTask) (h : List Byte)
    (m : FileMetadata) (req : Request) (hp : PastExpiration env st task m req)
    (hf : m.Finish = true) :
    doDetect env st task h = ⟨detectByReadMetaFile env st task.ID m, st, h⟩ := by
  obtain ⟨h1, h2, h3, h4⟩ := hp
  simp only [doDetect, h1, h2, h3, h4, hf]
  simp

theorem detectCache_after_ok (env : Env) (st : Storage) (task : SeedTask) (h : List Byte)
    (r : CacheResult) (hd : (doDetect env st task h).ret = .ok r) :
    (detectCache env st task h).storage =
        (updateAccessTime env (doDetect env st task h).storage task.ID env.now).2 ∧
    (detectCache env st task h).fileDigest = (doDetect env st task h).fileDigest := by
  simp [detectCache, detectCacheBody, hd, cacheResultString]

theorem updateAccessTime_keeps_artifacts (env : Env) (st : Storage) (taskID : String)
    (millis : Int) (id : String) :
    ((updateAccessTime env st taskID millis).2 id).metadata = (st id).metadata ∧
    ((updateAccessTime env st taskID millis).2 id).journal = (st id).journal ∧
    ((updateAccessTime env st taskID millis).2 id).blob = (st id).blob := by
  unfold updateAccessTime
  cases env.faults.updateAccessTime with
  | some e => exact ⟨rfl, rfl, rfl⟩
  | none =>
    by_cases hid : id = taskID
    · subst hid
      simp [Function.update_same]
    · simp [Function.update_noteq hid]

theorem fastPathSucceeds_of_same_artifacts (env : Env) (st st2 : Storage) (task : SeedTask)
    (hm : (st2 task.ID).metadata = (st task.ID).metadata)
    (hj : (st2 task.ID).journal = (st task.ID).journal)
    (hb : (st2 task.ID).blob = (st task.ID).blob)
    (h : FastPathSucceeds env st task) : FastPathSucceeds env st2 task := by
  obtain ⟨m, req, ⟨h1, h2, h3, h4⟩, hf, hg, hs, hc⟩ := h
  refine ⟨m, req, ⟨?_, h2, h3, h4⟩, hf, hg, hs, ?_⟩
  · unfold readFileMetadata at h1 ⊢
    rw [hm]
    exact h1
  · unfold FastChecks at hc ⊢
    rw [hj, hb]
    exact hc

theorem detectCache_of_fast_path (env : Env) (st : Storage) (task : SeedTask) (h : List Byte)
    (hfast : FastPathSucceeds env st task) :
    ∃ m, (st task.ID).metadata = some m ∧
      (detectCache env st task h).ret =
        .returned (some ⟨-1, (st task.ID).journal, some m⟩, none) ∧
      (detectCache env st task h).fileDigest = h ∧
      (detectCache env st task h).storage = (updateAccessTime env st task.ID env.now).2 := by
  obtain ⟨m, req, hp, hf, hg, hs, hc⟩ := hfast
  have hmeta : detectByReadMetaFile env st task.ID m =
      .ok ⟨-1, (st task.ID).journal, some m⟩ :=
    (detectByReadMetaFile_eq_ok_iff env st task.ID m _).2 ⟨hg, hs, hc, rfl⟩
  have hdo := doDetect_fast_eq env st task h m req hp hf
  have hd : (doDetect env st task h).ret = .ok ⟨-1, (st task.ID).journal, some m⟩ := by
    rw [hdo]; exact hmeta
  obtain ⟨ha, hb⟩ := detectCache_after_ok env st task h _ hd
  refine ⟨m, ?_, detectCache_of_ok env st task h _ hd, ?_, ?_⟩
  · have h1 := hp.1
    unfold readFileMetadata at h1
    split at h1
    · cases h1
    · split at h1
      · cases h1
      · rename_i m2 hm2
        injection h1 with h1
        rw [hm2, h1]
  · rw [hb, hdo]
  · rw [ha, hdo]

/-- A full hit of a finished task is read-only and repeatable: when the fast
path succeeds, `detectCache` returns break point `-1` with the journal, leaves
the running file hasher and the metadata, journal and blob on disk as they
were, and a second `detectCache` on the storage it left returns the same. -/
theorem detectCache_fast_path_read_only (env : Env) (st : Storage) (task : SeedTask)
    (h h2 : List Byte) (hfast : FastPathSucceeds env st task) :
    (∃ m, (detectCache env st task h).ret =
        .returned (some ⟨-1, (st task.ID).journal, some m⟩, none)) ∧
    (detectCache env st task h).fileDigest = h ∧
    ((detectCache env st task h).storage task.ID).metadata = (st task.ID).metadata ∧
    ((detectCache env st task h).storage task.ID).journal = (st task.ID).journal ∧
    ((detectCache env st task h).storage task.ID).blob = (st task.ID).blob ∧
    (detectCache env (detectCache env st task h).storage task h2).ret =
      (detectCache env st task h).ret := by
  obtain ⟨m, hm, hret, hdig, hsto⟩ := detectCache_of_fast_path env st task h hfast
  obtain ⟨k1, k2, k3⟩ := updateAccessTime_keeps_artifacts env st task.ID env.now task.ID
  rw [← hsto] at k1 k2 k3
  have hfast2 : FastPathSucceeds env (detectCache env st task h).storage task :=
    fastPathSucceeds_of_same_artifacts env st _ task k1 k2 k3 hfast
  obtain ⟨m2, hm2, hret2, _, _⟩ :=
    detectCache_of_fast_path env (detectCache env st task h).storage task h2 hfast2
  refine ⟨⟨m, hret⟩, hdig, k1, k2, k3, ?_⟩
  rw [hret2, hret, k2]
  rw [k1, hm] at hm2
  injection hm2 with hm2
  rw [hm2]

/-- C16: a failure of `updateAccessTime` does not change what `detectCache`
returns: with any other outcome of the update the returned value is the same.
And whenever `detectCache` returns a result, the storage it leaves is the one
left by `updateAccessTime(task.ID, now)`, called on the storage after the
detection (after the reset when there was one), so that the last-touched time
is `now` when the update does not fail. -/
theorem detectCache_access_time_update_is_swallowed (env : Env) (st : Storage)
    (task : SeedTask) (fileDigest : List Byte) :
    (∀ u, (detectCache { env with faults := { env.faults with updateAccessTime := u } }
        st task fileDigest).ret = (detectCache env st task fileDigest).ret) ∧
    (∀ r, (detectCache env st task fileDigest).ret = .returned (some r, none) →
      (detectCache env st task fileDigest).storage =
        (updateAccessTime env
          (match (doDetect env st task fileDigest).ret with
            | .ok _ => (doDetect env st task fileDigest).storage
            | .error _ => (resetCache env (doDetect env st task fileDigest).storage task).2)
          task.ID env.now).2 ∧
      (env.faults.updateAccessTime = none →
        ((detectCache env st task fileDigest).storage task.ID).accessTime = some env.now)) := by
  constructor
  · intro u
    have hd : doDetect { env with faults := { env.faults with updateAccessTime := u } }
        st task fileDigest = doDetect env st task fileDigest := rfl
    have hr : ∀ s, resetCache { env with faults := { env.faults with updateAccessTime := u } }
        s task = resetCache env s task := fun _ => rfl
    unfold detectCache detectCacheBody
    rw [hd]
    simp only [hr]
    cases (doDetect env st task fileDigest).ret with
    | ok r => rfl
    | error e =>
      simp only
      generalize resetCache env (doDetect env st task fileDigest).storage task = rc
      obtain ⟨v, s1⟩ := rc
      cases v <;> rfl
  · intro r hret
    have hsto : (detectCache env st task fileDigest).storage =
        (updateAccessTime env
          (match (doDetect env st task fileDigest).ret with
            | .ok _ => (doDetect env st task fileDigest).storage
            | .error _ => (resetCache env (doDetect env st task fileDigest).storage task).2)
          task.ID env.now).2 := by
      cases hd : (doDetect env st task fileDigest).ret with
      | ok r2 => simp [detectCache, detectCacheBody, hd, cacheResultString]
      | error e =>
        simp only [detectCache, detectCacheBody, hd] at hret ⊢
        generalize resetCache env (doDetect env st task fileDigest).storage task = rc
          at hret ⊢
        obtain ⟨v, s1⟩ := rc
        cases v with
        | error e2 => simp [cacheResultString] at hret
        | ok fresh => simp [cacheResultString]
    refine ⟨hsto, ?_⟩
    intro hu
    rw [hsto]
    simp [updateAccessTime, hu]


/-! ## Task identity checker and proxy configuration (claims C17, C18, C19, C20) -/

theorem string_ne_empty_of_length {s : String} (h : 0 < s.length) : s ≠ "" := by
  intro hs
  rw [hs] at h
  exact absurd h (by decide)

theorem append_ne_empty_right (a b : String) (h : 0 < b.length) : a ++ b ≠ "" := by
  apply string_ne_empty_of_length
  rw [String.length_append]
  omega

theorem append_ne_empty_left (a b : String) (h : 0 < a.length) : a ++ b ≠ "" := by
  apply string_ne_empty_of_length
  rw [String.length_append]
  omega

theorem checkMetadata_some_some (verbs : Verbs) (t : SeedTask) (m : FileMetadata) :
    ((checkMetadata verbs (some t) (some m)).1 = true ↔ IdentityMatches t m) ∧
    ((checkMetadata verbs (some t) (some m)).2 = "" ↔
      (checkMetadata verbs (some t) (some m)).1 = true) := by
  unfold checkMetadata IdentityMatches
  simp only
  by_cases h1 : m.TaskID = t.ID
  · by_cases h2 : m.TaskURL = t.TaskURL
    · by_cases h3 : m.PieceSize = t.PieceSize
      · by_cases h4 : t.Range = m.Range
        · by_cases h5 : t.Digest = m.Digest
          · by_cases h6 : t.Tag = m.Tag
            · by_cases h7 : t.Filter = m.Filter
              · simp [h1, h2, h3, h4, h5, h6, h7]
              · have h7b : ¬ m.Filter = t.Filter := fun h => h7 h.symm
                simp only [h1, h2, h3, h4, h5, h6, h7, h7b, ne_eq, not_true_eq_false,
                  not_false_eq_true, if_true, if_false, and_false, and_true, Bool.false_eq_true,
                  false_iff, iff_false]
                exact ⟨trivial, append_ne_empty_right _ _ (by decide)⟩
            · have h6b : ¬ m.Tag = t.Tag := fun h => h6 h.symm
              simp only [h1, h2, h3, h4, h5, h6, h6b, ne_eq, not_true_eq_false,
                not_false_eq_true, if_true, if_false, and_false, and_true, false_and,
                Bool.false_eq_true, false_iff, iff_false]
              exact ⟨trivial, append_ne_empty_right _ _ (by decide)⟩
          · have h5b : ¬ m.Digest = t.Digest := fun h => h5 h.symm
            simp only [h1, h2, h3, h4, h5, h5b, ne_eq, not_true_eq_false,
              not_false_eq_true, if_true, if_false, and_false, and_true, false_and,
              Bool.false_eq_true, false_iff, iff_false]
            exact ⟨trivial, append_ne_empty_right _ _ (by decide)⟩
        · have h4b : ¬ m.Range = t.Range := fun h => h4 h.symm
          simp only [h1, h2, h3, h4, h4b, ne_eq, not_true_eq_false,
            not_false_eq_true, if_true, if_false, and_false, and_true, false_and,
            Bool.false_eq_true, false_iff, iff_false]
          exact ⟨trivial, append_ne_empty_right _ _ (by decide)⟩
      · simp only [h1, h2, h3, ne_eq, not_true_eq_false,
          not_false_eq_true, if_true, if_false, and_false, and_true, false_and,
          Bool.false_eq_true, false_iff, iff_false]
        exact ⟨trivial, append_ne_empty_right _ _ (by decide)⟩
    · simp only [h1, h2, ne_eq, not_true_eq_false,
        not_false_eq_true, if_true, if_false, and_false, and_true, false_and,
        Bool.false_eq_true, false_iff, iff_false]
      exact ⟨trivial, append_ne_empty_right _ _ (by decide)⟩
  · simp only [h1, ne_eq, not_true_eq_false,
      not_false_eq_true, if_true, if_false, and_false, and_true, false_and,
      Bool.false_eq_true, false_iff, iff_false]
    exact ⟨trivial, append_ne_empty_right _ _ (by decide)⟩

theorem checkMetadata_nil (verbs : Verbs) (task : Option SeedTask)
    (metadata : Option FileMetadata) (h : task = none ∨ metadata = none) :
    (checkMetadata verbs task metadata).1 = false ∧ (checkMetadata verbs task metadata).2 ≠ "" := by
  have hlen : ∀ a b : String,
      ("task or metadata is nil, task: " ++ a ++ ", metadata: " ++ b) ≠ "" := by
    intro a b
    apply string_ne_empty_of_length
    simp only [String.length_append]
    have : 0 < ", metadata: ".length := by decide
    omega
  cases task with
  | none => cases metadata <;> exact ⟨rfl, hlen _ _⟩
  | some t =>
    cases metadata with
    | none => exact ⟨rfl, hlen _ _⟩
    | some m => rcases h with h | h <;> cases h

/-- C17: `checkMetadata` returns `ok = true` exactly when the task and the
metadata are both non-nil and their seven identity fields (task id, task URL,
piece size, range, digest, tag, filter) are equal; the reason is the empty
string exactly when `ok` is true; and the other fields of the task (`RawURL`,
`Header`) and of the metadata (`Finish`, `Success`, `SourceRealDigest`,
`ExpireInfo`, the lengths, the piece sign and count) do not affect the
verdict. -/
theorem checkMetadata_verdict (verbs : Verbs) (task : Option SeedTask)
    (metadata : Option FileMetadata) :
    ((checkMetadata verbs task metadata).1 = true ↔
      ∃ t m, task = some t ∧ metadata = some m ∧ IdentityMatches t m) ∧
    ((checkMetadata verbs task metadata).2 = "" ↔
      (checkMetadata verbs task metadata).1 = true) ∧
    (∀ (t : SeedTask) (m : FileMetadata) (rawURL : String) (header : List (String × String))
        (sourceFileLen cdnFileLength totalPieceCount : Int)
        (sourceRealDigest pieceMd5Sign : String) (expireInfo : List (String × String))
        (finish success : Bool),
      (checkMetadata verbs (some { t with RawURL := rawURL, Header := header })
        (some { m with SourceFileLen := sourceFileLen, CdnFileLength := cdnFileLength,
                       TotalPieceCount := totalPieceCount,
                       SourceRealDigest := sourceRealDigest, PieceMd5Sign := pieceMd5Sign,
                       ExpireInfo := expireInfo, Finish := finish, Success := success })).1 =
      (checkMetadata verbs (some t) (some m)).1) := by
  refine ⟨?_, ?_, ?_⟩
  · cases task with
    | none =>
      have h := (checkMetadata_nil verbs none metadata (Or.inl rfl)).1
      rw [h]
      constructor
      · intro hc; cases hc
      · rintro ⟨t, m, ht, _⟩; cases ht
    | some t =>
      cases metadata with
      | none =>
        have h := (checkMetadata_nil verbs (some t) none (Or.inr rfl)).1
        rw [h]
        constructor
        · intro hc; cases hc
        · rintro ⟨t2, m, _, hm, _⟩; cases hm
      | some m =>
        rw [(checkMetadata_some_some verbs t m).1]
        constructor
        · intro h; exact ⟨t, m, rfl, rfl, h⟩
        · rintro ⟨t2, m2, ht, hm, h⟩
          cases ht; cases hm
          exact h
  · cases task with
    | none =>
      obtain ⟨h1, h2⟩ := checkMetadata_nil verbs none metadata (Or.inl rfl)
      rw [h1]
      exact ⟨fun h => absurd h h2, fun h => by cases h⟩
    | some t =>
      cases metadata with
      | none =>
        obtain ⟨h1, h2⟩ := checkMetadata_nil verbs (some t) none (Or.inr rfl)
        rw [h1]
        exact ⟨fun h => absurd h h2, fun h => by cases h⟩
      | some m => exact (checkMetadata_some_some verbs t m).2
  · intro t m rawURL header sourceFileLen cdnFileLength totalPieceCount sourceRealDigest
      pieceMd5Sign expireInfo finish success
    rw [Bool.eq_iff_iff, (checkMetadata_some_some verbs _ _).1,
      (checkMetadata_some_some verbs t m).1]
    exact Iff.rfl

/-- C18: for every task, `checkMetadata` applied to the task and to a metadata
record whose seven identity fields are copied from the task returns
`(true, "")`; the fresh record written for the task is such a record. -/
theorem checkMetadata_accepts_fresh_metadata (verbs : Verbs) (task : SeedTask) :
    (∀ m, IdentityMatches task m → checkMetadata verbs (some task) (some m) = (true, "")) ∧
    IdentityMatches task (freshMetadata task) ∧
    (∀ env st m, (writeFileMetadataByTask env st task).1 = .ok m →
      checkMetadata verbs (some task) (some m) = (true, "")) := by
  have hgen : ∀ m, IdentityMatches task m →
      checkMetadata verbs (some task) (some m) = (true, "") := by
    intro m hm
    have h1 := (checkMetadata_some_some verbs task m).1.2 hm
    have h2 := (checkMetadata_some_some verbs task m).2.2 h1
    exact Prod.ext h1 h2
  have hfresh : IdentityMatches task (freshMetadata task) :=
    ⟨rfl, rfl, rfl, rfl, rfl, rfl, rfl⟩
  refine ⟨hgen, hfresh, ?_⟩
  intro env st m hw
  unfold writeFileMetadataByTask at hw
  split at hw
  · cases hw
  · injection hw with hw
    rw [← hw]
    exact hgen _ hfresh

/-- The errors of `Validate`: none exactly for ports from 1024 to 65535, and
never more than one. -/
theorem validate_empty_iff (c : Nginx.Config) :
    (c.Validate = [] ↔ (1024 ≤ c.DownloadPort ∧ c.DownloadPort ≤ 65535)) ∧
    c.Validate.length ≤ 1 := by
  unfold Nginx.Config.Validate
  by_cases h : c.DownloadPort > 65535 ∨ c.DownloadPort < 1024
  · rw [if_pos h]
    refine ⟨⟨fun hc => ?_, fun hc => ?_⟩, ?_⟩
    · cases hc
    · omega
    · exact Nat.le_refl 1
  · rw [if_neg h]
    refine ⟨⟨fun _ => ?_, fun _ => rfl⟩, ?_⟩
    · omega
    · exact Nat.zero_le 1

/-- C19 (code defect): a configuration with `DownloadPort = 80`, a port between
0 and 65535. `Validate` returns one error, whose own text says that the port
"must be between 0 and 65535, inclusive": the test rejects every port below
1024. -/
theorem validate_rejects_port_80 :
    (0 ≤ (Scenario.nginxConfig 80).DownloadPort ∧ (Scenario.nginxConfig 80).DownloadPort ≤ 65535) ∧
    (Scenario.nginxConfig 80).Validate =
      ["rpc server DownloadPort must be between 0 and 65535, inclusive. but is: 80"] := by
  decide

/-- C20 (code defect): the reason given for a tag mismatch and for a digest
mismatch does not show the two values of the mismatching field. With tags
`green` (metadata) and `blue` (task) and equal ranges `0-99`, the reason shows
the range twice; with digests `md5:bbb` (metadata) and `md5:aaa` (task), the
reason shows the metadata's `SourceRealDigest` (`md5:ccc`) in place of its
`Digest`. -/
theorem checkMetadata_reason_shows_other_fields :
    checkMetadata Scenario.verbs (some Scenario.taggedTask)
        (some { freshMetadata Scenario.taggedTask with Tag := "green" }) =
      (false, "metadata tag(0-99) is not equals with task tag(0-99)") ∧
    checkMetadata Scenario.verbs (some Scenario.taggedTask)
        (some { freshMetadata Scenario.taggedTask with
                Digest := "md5:bbb", SourceRealDigest := "md5:ccc" }) =
      (false, "meta digest(md5:ccc) is not equals with task request digest(md5:aaa)") := by
  decide


/-! ## Defaults of the proxy configuration (claim C21) -/

theorem mk_or_dot_ne_empty (out : List Char) :
    (if out = [] then "." else String.mk out) ≠ "" := by
  by_cases h : out = []
  · rw [if_pos h]; decide
  · rw [if_neg h]
    intro he
    exact h (congrArg String.data he)

theorem filepathClean_ne_empty (path : String) : Nginx.filepathClean path ≠ "" := by
  unfold Nginx.filepathClean
  by_cases hp : path = ""
  · rw [if_pos hp]; decide
  · rw [if_neg hp]
    exact mk_or_dot_ne_empty _

theorem filepathJoin_ne_empty (dir name : String) (h : name ≠ "") :
    Nginx.filepathJoin [dir, name] ≠ "" := by
  unfold Nginx.filepathJoin
  by_cases hd : dir = ""
  · simp only [List.dropWhile, hd, decide_True, h, decide_False]
    exact filepathClean_ne_empty _
  · simp only [List.dropWhile, hd, decide_False]
    exact filepathClean_ne_empty _

theorem applyDefaults_of_set (d : Nginx.Config) (hb : d.Binary ≠ "") (hp : d.DownloadPort ≠ 0)
    (h1 : d.StdoutLogPath ≠ "") (h2 : d.AccessLogPath ≠ "") (h3 : d.ErrorLogPath ≠ "") :
    d.applyDefaults = (none, d) := by
  simp [Nginx.Config.applyDefaults, hb, hp, h1, h2, h3]

/-- C21: `applyDefaults` fails exactly when `LogDir` is empty and one of the
three log paths is empty. When it succeeds, the configuration it leaves is the
given one with `Binary` set to `/usr/sbin/nginx` if it was empty,
`DownloadPort` set to 8001 if it was 0, and each empty log path set to
`filepath.Join(LogDir, ...)` with `nginx-stdout.log`, `nginx-access.log`,
`nginx-error.log`; every other field, and every field that was set, is as it
was; and applying it again succeeds and changes nothing. -/
theorem applyDefaults_spec (c : Nginx.Config) :
    (c.applyDefaults.1 ≠ none ↔
      (c.LogDir = "" ∧ (c.StdoutLogPath = "" ∨ c.AccessLogPath = "" ∨ c.ErrorLogPath = ""))) ∧
    (c.applyDefaults.1 = none →
      c.applyDefaults.2 =
        { c with
          Binary := if c.Binary = "" then "/usr/sbin/nginx" else c.Binary,
          DownloadPort := if c.DownloadPort = 0 then 8001 else c.DownloadPort,
          StdoutLogPath :=
            if c.StdoutLogPath = "" then Nginx.filepathJoin [c.LogDir, "nginx-stdout.log"]
            else c.StdoutLogPath,
          AccessLogPath :=
            if c.AccessLogPath = "" then Nginx.filepathJoin [c.LogDir, "nginx-access.log"]
            else c.AccessLogPath,
          ErrorLogPath :=
            if c.ErrorLogPath = "" then Nginx.filepathJoin [c.LogDir, "nginx-error.log"]
            else c.ErrorLogPath } ∧
      c.applyDefaults.2.applyDefaults = (none, c.applyDefaults.2)) := by
  obtain ⟨bin, port, sl, root, name, tp, cd, ld, so, ac, er⟩ := c
  have j1 := filepathJoin_ne_empty ld "nginx-stdout.log" (by decide)
  have j2 := filepathJoin_ne_empty ld "nginx-access.log" (by decide)
  have j3 := filepathJoin_ne_empty ld "nginx-error.log" (by decide)
  have hport : Nginx.DefaultDownloadPort = 8001 := rfl
  by_cases hl : ld = "" <;> by_cases h1 : so = "" <;>
    by_cases h2 : ac = "" <;> by_cases h3 : er = "" <;>
    by_cases hb : bin = "" <;> by_cases hp : port = 0 <;>
    refine ⟨?_, ?_⟩ <;>
    simp [Nginx.Config.applyDefaults, hl, h1, h2, h3, hb, hp, hport, j1, j2, j3]

set_option maxRecDepth 1000000 in
/-- The defaults on a configuration in which only the directories and the
access log are set, and the failure when the log directory is missing too. -/
theorem scenario_applyDefaults :
    Scenario.bareConfig.applyDefaults =
      (none, { Scenario.bareConfig with
               Binary := "/usr/sbin/nginx", DownloadPort := 8001,
               StdoutLogPath := "/var/log/nginx/nginx-stdout.log",
               ErrorLogPath := "/var/log/nginx/nginx-error.log" }) ∧
    ({ Scenario.bareConfig with LogDir := "" } : Nginx.Config).applyDefaults.1 =
      some "one of log_dir or stdout_log_path must be set" := by
  decide


end Dragonfly
